import Mathlib

/-!
Verification development for the df-chat data-access and orchestration core.

The repository contains a data-platform client (`DreamFactoryTool`), a
standalone generalized search tool, and a conversation orchestrator
(`OpenAIService.chat`).  Two revisions of `DreamFactoryTool` are present in
the sources: the one in `src/lib/dreamfactory.ts` (namespace `DFLib` below),
which validates table and field names before querying, and the one in
`src/unnamed/part_007` (namespace `DF` below), which tracks requested
endpoints and normalizes filter strings.  The standalone search tool of
`src/unnamed/part_000` is namespace `ST`, and the orchestration loop of
`src/lib/openai.ts` is namespace `Orch`.

Strings are modelled with Lean `String`/`List Char`; network effects are
modelled by explicit state passing (the list of fetched URLs) and an
environment function giving each fetch's response.
-/

namespace DfChat

/-- Decidable equality for `Except`, so that concrete runs can be settled
by `decide`. -/
instance exceptDecEq {ε α : Type _} [DecidableEq ε] [DecidableEq α] :
    DecidableEq (Except ε α) := fun x y =>
  match x, y with
  | .ok a, .ok b =>
    if h : a = b then .isTrue (by rw [h]) else .isFalse (by simp [h])
  | .error a, .error b =>
    if h : a = b then .isTrue (by rw [h]) else .isFalse (by simp [h])
  | .ok _, .error _ => .isFalse (by simp)
  | .error _, .ok _ => .isFalse (by simp)

/-- The single-quote character as a one-character string, used when
assembling SQL-like filter strings. -/
def sq : String := String.singleton (Char.ofNat 39)

/-- Does the pattern `p` occur at the head of `l`? -/
def startsWithSeq : List Char → List Char → Bool
  | _, [] => true
  | [], _ :: _ => false
  | a :: l, b :: p => a = b && startsWithSeq l p

/-- Does the pattern `p` occur anywhere in `l`? -/
def containsSeq (p : List Char) : List Char → Bool
  | [] => startsWithSeq [] p
  | c :: t => startsWithSeq (c :: t) p || containsSeq p t

/-- JS `s.includes(pat)` on strings. -/
def strIncludes (s pat : String) : Bool := containsSeq pat.data s.data

/-- JS `s.startsWith(pat)` on strings. -/
def strStartsWith (s pat : String) : Bool := startsWithSeq s.data pat.data

/-- JS `s.toLowerCase()` (over the ASCII range relevant here). -/
def lowerStr (s : String) : String := String.mk (s.data.map Char.toLower)

/-- Split a character list at every character satisfying `p`, keeping empty
segments (JS `String.split` semantics with a single-character separator). -/
def splitOnPred (p : Char → Bool) : List Char → List (List Char)
  | [] => [[]]
  | c :: cs =>
    if p c then [] :: splitOnPred p cs
    else
      match splitOnPred p cs with
      | t :: ts => (c :: t) :: ts
      | [] => [[c]]

/-- Trim leading and trailing whitespace from a character list. -/
def wsTrim (l : List Char) : List Char :=
  ((l.dropWhile Char.isWhitespace).reverse.dropWhile Char.isWhitespace).reverse

/-- JS `s.trim().split(/\s+/)`: whitespace-run tokenization after trimming;
the empty string yields the single empty token, as in JS. -/
def jsTrimSplitWs (s : String) : List String :=
  let t := wsTrim s.data
  if t = [] then [""]
  else ((splitOnPred Char.isWhitespace t).filter (fun x => x ≠ [])).map String.mk

/-- Hexadecimal digit character (uppercase). -/
def hexDigitChar (n : Nat) : Char :=
  if n < 10 then Char.ofNat (48 + n) else Char.ofNat (55 + n)

/-- The UTF-8 encoding of a character, as byte values. -/
def utf8Bytes (c : Char) : List Nat :=
  let n := c.toNat
  if n < 128 then [n]
  else if n < 2048 then [192 + n / 64, 128 + n % 64]
  else if n < 65536 then [224 + n / 4096, 128 + (n / 64) % 64, 128 + n % 64]
  else [240 + n / 262144, 128 + (n / 4096) % 64, 128 + (n / 64) % 64, 128 + n % 64]

/-- Percent-encode one byte value as `%HH`. -/
def percentByte (b : Nat) : List Char :=
  ['%', hexDigitChar (b / 16), hexDigitChar (b % 16)]

/-- Characters `encodeURIComponent` leaves unescaped. -/
def uriUnescaped (c : Char) : Bool :=
  c.isAlphanum || c = '-' || c = '_' || c = '.' || c = '!' || c = '~' ||
  c = '*' || c = Char.ofNat 39 || c = '(' || c = ')'

/-- JS `encodeURIComponent`. -/
def encodeURIComponent (s : String) : String :=
  String.mk (s.data.flatMap fun c =>
    if uriUnescaped c then [c] else (utf8Bytes c).flatMap percentByte)

/-- Characters the `URLSearchParams` serializer leaves unescaped. -/
def formUnescaped (c : Char) : Bool :=
  c.isAlphanum || c = '*' || c = '-' || c = '.' || c = '_'

/-- `application/x-www-form-urlencoded` escaping of one component. -/
def formEncode (s : String) : String :=
  String.mk (s.data.flatMap fun c =>
    if c = ' ' then ['+']
    else if formUnescaped c then [c]
    else (utf8Bytes c).flatMap percentByte)

/-- `URLSearchParams.toString()` on an ordered key/value list. -/
def formSerialize (ps : List (String × String)) : String :=
  String.intercalate "&" (ps.map fun kv => formEncode kv.1 ++ "=" ++ formEncode kv.2)

namespace ST

/-- A field of a table schema as delivered by the platform
(`src/unnamed/part_000`, interface `SchemaField`). -/
structure SchemaField where
  name : String
  type : String
  label : Option String
deriving DecidableEq, Inhabited

/-- A table schema (`src/unnamed/part_000`, interface `TableSchema`); the
`field` array may be absent from a malformed response. -/
structure TableSchema where
  field : Option (List SchemaField)
deriving DecidableEq

/-- One prefix-match condition `(field like 'term%')`
(`src/unnamed/part_000` line 70 and line 82). -/
def likeCond (fieldName term : String) : String :=
  "(" ++ fieldName ++ " like " ++ sq ++ term ++ "%" ++ sq ++ ")"

/-- Candidate searchable fields: string-typed and not underscore-prefixed
(`src/unnamed/part_000` lines 50-51). -/
def stringFieldsOf (fs : List SchemaField) : List SchemaField :=
  fs.filter fun f => f.type == "string" && !(strStartsWith f.name "_")

/-- Fields whose label or name contains "name" case-insensitively
(`src/unnamed/part_000` lines 63-64). -/
def nameFieldsOf (fs : List SchemaField) : List SchemaField :=
  fs.filter fun f =>
    (match f.label with
     | some l => strIncludes (lowerStr l) "name"
     | none => false)
    || strIncludes (lowerStr f.name) "name"

/-- The filter expression built by `DreamFactoryTool.searchTable`
(`src/unnamed/part_000` lines 57-84). -/
def searchFilter (fs : List SchemaField) (searchTerm : String) : String :=
  let stringFields := stringFieldsOf fs
  let terms := jsTrimSplitWs searchTerm
  if terms.length > 1 then
    let nameFields := nameFieldsOf stringFields
    if nameFields.length ≥ 2 then
      String.intercalate " and "
        (List.zipWith (fun f t => likeCond f.name t) nameFields terms)
    else
      String.intercalate " or "
        (stringFields.map fun f =>
          String.intercalate " or " (terms.map fun t => likeCond f.name t))
  else
    String.intercalate " or " (stringFields.map fun f => likeCond f.name searchTerm)

/-- Environment: the platform's response to a table-schema fetch. -/
structure Env where
  tableSchema : String → String → Option TableSchema

/-- Observable effect trace: URLs fetched so far, in order. -/
structure RunState where
  fetches : List String
deriving DecidableEq

/-- URL built by `get` (`src/unnamed/part_000` lines 30-40). -/
def getUrl (baseUrl endpoint : String) : String := baseUrl ++ "/api/v2/" ++ endpoint

/-- `DreamFactoryTool.searchTable` (`src/unnamed/part_000` lines 42-94):
fetches the table schema, derives the candidate string fields, fails when
the schema is missing or no candidate exists, and otherwise issues the
table query with the percent-encoded filter.  The successful result is the
endpoint hit (the response payload itself is never inspected). -/
def searchTable (env : Env) (baseUrl : String) (st : RunState)
    (serviceName tableName searchTerm : String) :
    Except String String × RunState :=
  let schemaEndpoint := serviceName ++ "/_schema/" ++ tableName
  let st1 : RunState := { fetches := st.fetches ++ [getUrl baseUrl schemaEndpoint] }
  match env.tableSchema serviceName tableName with
  | none => (.error ("Could not get schema for table " ++ tableName), st1)
  | some schema =>
    match schema.field with
    | none => (.error ("Could not get schema for table " ++ tableName), st1)
    | some fs =>
      let stringFields := stringFieldsOf fs
      if stringFields.isEmpty then
        (.error ("No searchable string fields found in table " ++ tableName), st1)
      else
        let filter := searchFilter fs searchTerm
        let endpoint := serviceName ++ "/_table/" ++ tableName ++ "?filter="
          ++ encodeURIComponent filter
        (.ok endpoint, { fetches := st1.fetches ++ [getUrl baseUrl endpoint] })

end ST

/-- One entry of a service schema's `resource` array
(`types.ts`, `DreamFactorySchema.resource`). -/
structure ResItem where
  name : String
deriving DecidableEq, Inhabited

/-- A service schema (`DreamFactorySchema`); the `resource` array may be
absent from the response. -/
structure SvcSchema where
  resource : Option (List ResItem)
deriving DecidableEq

/-- A named field of a table schema, as consulted by `searchByName`
(`schema.field?.map(f => f.name)`). -/
structure TblField where
  name : String
deriving DecidableEq, Inhabited

/-- A table schema as cached by `getTableSchema`; the `field` array may be
absent. -/
structure TblSchema where
  field : Option (List TblField)
deriving DecidableEq

/-- `endpoint.replace(/^\/+/, '')` (`makeRequest`). -/
def cleanEndpoint (e : String) : String := String.mk (e.data.dropWhile (· = '/'))

/-- The fully-qualified URL of an outbound call:
`${baseUrl}/api/v2/${cleanEndpoint}`. -/
def apiUrl (baseUrl endpoint : String) : String :=
  baseUrl ++ "/api/v2/" ++ cleanEndpoint endpoint

/-- JS truthiness of an optional string (`undefined` and `''` are falsy). -/
def truthyStr : Option String → Bool
  | none => false
  | some s => s != ""

/-- JS truthiness of an optional number (`undefined` and `0` are falsy). -/
def truthyInt : Option Int → Bool
  | none => false
  | some n => n != 0

/-- JS truthiness of an optional boolean. -/
def truthyBool : Option Bool → Bool
  | none => false
  | some b => b

/-- JS truthiness of an optional array (any array, even empty, is truthy). -/
def definedList : Option (List String) → Bool
  | none => false
  | some _ => true

namespace DF

/-- `filter.replace(/\s*=\s*/g, '=')` (`src/unnamed/part_007` line 158) as a
left-to-right scanner: `afterEq` records that an `=` was just emitted (its
trailing whitespace is being discarded); `pend` is the pending whitespace
run whose fate depends on whether an `=` follows it. -/
def collapseEqGo : Bool → List Char → List Char → List Char
  | _, pend, [] => pend
  | afterEq, pend, c :: cs =>
    if c = '=' then '=' :: collapseEqGo true [] cs
    else if c.isWhitespace then
      if afterEq then collapseEqGo true [] cs
      else collapseEqGo false (pend ++ [c]) cs
    else pend ++ (c :: collapseEqGo false [] cs)

/-- `filter.replace(/\s*=\s*/g, '=')`. -/
def collapseEqWs (l : List Char) : List Char := collapseEqGo false [] l

/-- `.replace(/\(\s+/g, '(')` (`src/unnamed/part_007` line 159) as a
scanner: the flag records being directly behind an opening parenthesis,
whose following whitespace run is discarded. -/
def collapseOpenGo : Bool → List Char → List Char
  | _, [] => []
  | afterOpen, c :: cs =>
    if afterOpen && c.isWhitespace then collapseOpenGo true cs
    else if c = '(' then '(' :: collapseOpenGo true cs
    else c :: collapseOpenGo false cs

/-- `.replace(/\(\s+/g, '(')`. -/
def collapseOpenWs (l : List Char) : List Char := collapseOpenGo false l

/-- `.replace(/\s+\)/g, ')')` (`src/unnamed/part_007` line 160) as a
scanner: `pend` is the pending whitespace run, discarded when a closing
parenthesis follows it. -/
def collapseCloseGo : List Char → List Char → List Char
  | pend, [] => pend
  | pend, c :: cs =>
    if c.isWhitespace then collapseCloseGo (pend ++ [c]) cs
    else if c = ')' then ')' :: collapseCloseGo [] cs
    else pend ++ (c :: collapseCloseGo [] cs)

/-- `.replace(/\s+\)/g, ')')`. -/
def collapseCloseWs (l : List Char) : List Char := collapseCloseGo [] l

/-- Is the head of the list a whitespace character? -/
def headIsWs : List Char → Bool
  | [] => false
  | c :: _ => c.isWhitespace

/-- Case-insensitive match of the three characters of the word `and`. -/
def isWordAnd (a n d : Char) : Bool :=
  (a.toLower = 'a') && (n.toLower = 'n') && (d.toLower = 'd')

/-- `.replace(/\s+and\s+/gi, ' and ')` (`src/unnamed/part_007` line 161) as
a scanner: `pend` is the pending whitespace run; when it is followed by the
word `and` (case-insensitive) and at least one more whitespace character,
the whole span is rewritten to a single-spaced lowercase ` and `.  The
first argument set to `true` discards the whitespace run the match already
consumed after the connector. -/
def collapseAndGo : Bool → List Char → List Char → List Char
  | _, pend, [] => pend
  | true, _, c :: cs =>
    if c.isWhitespace then collapseAndGo true [] cs
    else c :: collapseAndGo false [] cs
  | false, pend, c :: cs =>
    if c.isWhitespace then collapseAndGo false (pend ++ [c]) cs
    else if pend.isEmpty then c :: collapseAndGo false [] cs
    else
      match cs with
      | n :: d :: rest =>
        if isWordAnd c n d && headIsWs rest then
          ' ' :: 'a' :: 'n' :: 'd' :: ' ' :: collapseAndGo true [] rest
        else pend ++ (c :: collapseAndGo false [] (n :: d :: rest))
      | [n] => pend ++ (c :: collapseAndGo false [] [n])
      | [] => pend ++ [c]

/-- `.replace(/\s+and\s+/gi, ' and ')`. -/
def collapseAndWs (l : List Char) : List Char := collapseAndGo false [] l

/-- The filter normalization applied by `queryTable`
(`src/unnamed/part_007` lines 156-165): the four rewrites above, then a
wrap in parentheses when the result does not already start with one. -/
def formatFilter (f : String) : String :=
  let g := String.mk (collapseAndWs (collapseCloseWs (collapseOpenWs (collapseEqWs f.data))))
  if strStartsWith g "(" then g else "(" ++ g ++ ")"

/-- `queryTable`'s optional parameters (`src/unnamed/part_007` lines
143-152); `none` models an absent (`undefined`) property. -/
structure QueryParams where
  filter : Option String := none
  limit : Option Int := none
  offset : Option Int := none
  order : Option String := none
  fields : Option (List String) := none
  include_count : Option Bool := none
  include_schema : Option Bool := none
  related : Option String := none
deriving DecidableEq

/-- The ordered key/value pairs `queryTable` puts into its
`URLSearchParams` (`src/unnamed/part_007` lines 154-176).  Each branch
mirrors one `if (params.x) queryParams.set(...)` line, including JS
truthiness of the conditions. -/
def buildQueryPairs (p : QueryParams) : List (String × String) :=
  (if truthyStr p.filter then [("filter", formatFilter (p.filter.getD ""))] else []) ++
  (if truthyInt p.limit then [("limit", toString (p.limit.getD 0))] else []) ++
  (if truthyInt p.offset then [("offset", toString (p.offset.getD 0))] else []) ++
  (if truthyStr p.order then [("order", p.order.getD "")] else []) ++
  (if definedList p.fields then [("fields", String.intercalate "," (p.fields.getD []))] else []) ++
  (if truthyBool p.include_count then [("include_count", "true")] else []) ++
  (if truthyBool p.include_schema then [("include_schema", "true")] else []) ++
  (if truthyStr p.related then [("related", p.related.getD "")] else [])

/-- The `_table` endpoint assembled by `queryTable`
(`src/unnamed/part_007` lines 178-180). -/
def queryEndpoint (serviceName tableName : String) (p : QueryParams) : String :=
  let qs := formSerialize (buildQueryPairs p)
  serviceName ++ "/_table/" ++ tableName ++ (if qs = "" then "" else "?" ++ qs)

/-- The environment of one `DreamFactoryTool` instance: its base URL (the
constructor already stripped trailing slashes), the session token
`AuthService.getSessionToken()` returns, and the platform's responses.
Responses are keyed the way the client asks for them; `.error` models a
non-success HTTP status carrying the extracted error message. -/
structure Env where
  baseUrl : String
  sessionToken : Option String
  servicesResp : Except String (Option (List String))
  svcSchemaResp : String → Except String SvcSchema
  tblSchemaResp : String → String → Except String TblSchema
  tableResp : String → Except String String

/-- Mutable state of one `DreamFactoryTool` instance: both schema caches
and the endpoint log. -/
structure State where
  cachedSchema : List (String × SvcSchema) := []
  cachedTableSchemas : List (String × TblSchema) := []
  requestedEndpoints : List String := []
deriving DecidableEq

/-- `makeRequest` (`src/unnamed/part_007` lines 46-94): the fully-qualified
URL is pushed onto the endpoint log first, then the session is checked,
then the response `r` is delivered (or its error thrown). -/
def makeRequest (env : Env) (st : State) (endpoint : String)
    (r : Except String α) : Except String α × State :=
  let st1 : State :=
    { st with requestedEndpoints := st.requestedEndpoints ++ [apiUrl env.baseUrl endpoint] }
  match env.sessionToken with
  | none => (.error "No active session found", st1)
  | some _ => (r, st1)

/-- `listServices` (`src/unnamed/part_007` lines 96-99); a response without
a `services` array yields `[]`. -/
def listServices (env : Env) (st : State) : Except String (List String) × State :=
  match makeRequest env st "" env.servicesResp with
  | (.ok r, st1) => (.ok (r.getD []), st1)
  | (.error e, st1) => (.error e, st1)

/-- `getServiceSchema` (`src/unnamed/part_007` lines 101-108): cached per
service name; only a cache miss fetches. -/
def getServiceSchema (env : Env) (st : State) (serviceName : String) :
    Except String SvcSchema × State :=
  match st.cachedSchema.lookup serviceName with
  | some s => (.ok s, st)
  | none =>
    match makeRequest env st (serviceName ++ "/_schema") (env.svcSchemaResp serviceName) with
    | (.ok s, st1) => (.ok s, { st1 with cachedSchema := st1.cachedSchema ++ [(serviceName, s)] })
    | (.error e, st1) => (.error e, st1)

/-- `getTableSchema` (`src/unnamed/part_007` lines 110-118): cached per
`service/table` key; only a cache miss fetches. -/
def getTableSchema (env : Env) (st : State) (serviceName tableName : String) :
    Except String TblSchema × State :=
  let cacheKey := serviceName ++ "/" ++ tableName
  match st.cachedTableSchemas.lookup cacheKey with
  | some s => (.ok s, st)
  | none =>
    match makeRequest env st (serviceName ++ "/_schema/" ++ tableName)
        (env.tblSchemaResp serviceName tableName) with
    | (.ok s, st1) =>
      (.ok s, { st1 with cachedTableSchemas := st1.cachedTableSchemas ++ [(cacheKey, s)] })
    | (.error e, st1) => (.error e, st1)

/-- `listTables` (`src/unnamed/part_007` lines 120-126): table names from
the service schema, dropping underscore-prefixed names. -/
def listTables (env : Env) (st : State) (serviceName : String) :
    Except String (List String) × State :=
  match getServiceSchema env st serviceName with
  | (.error e, st1) => (.error e, st1)
  | (.ok schema, st1) =>
    match schema.resource with
    | none => (.ok [], st1)
    | some rs =>
      (.ok ((rs.filter (fun r => !(strStartsWith r.name "_"))).map (fun r => r.name)), st1)

/-- `queryTable` (`src/unnamed/part_007` lines 140-183): note this revision
does not verify the table against `listTables`. -/
def queryTable (env : Env) (st : State) (serviceName tableName : String)
    (p : QueryParams) : Except String String × State :=
  let endpoint := queryEndpoint serviceName tableName p
  makeRequest env st endpoint (env.tableResp endpoint)

/-- The filter built by `searchTableByField` (`src/unnamed/part_007` lines
193-195): equality filter when `exact`, prefix filter otherwise; string
values are single-quoted, numbers interpolated bare. -/
def searchFieldFilter (fieldName : String) (value : String ⊕ Int) (exact : Bool) : String :=
  if exact then
    match value with
    | .inl s => "(" ++ fieldName ++ "=" ++ sq ++ s ++ sq ++ ")"
    | .inr n => "(" ++ fieldName ++ "=" ++ toString n ++ ")"
  else
    "(" ++ fieldName ++ " like " ++ sq
      ++ (match value with | .inl s => s | .inr n => toString n) ++ "%" ++ sq ++ ")"

/-- `searchTableByField` (`src/unnamed/part_007` lines 185-202). -/
def searchTableByField (env : Env) (st : State) (serviceName tableName fieldName : String)
    (value : String ⊕ Int) (exact : Bool) (related : Option String) :
    Except String String × State :=
  queryTable env st serviceName tableName
    { filter := some (searchFieldFilter fieldName value exact)
      related := related
      include_schema := some true }

/-- The name-search filter built by `searchByName` (`src/unnamed/part_007`
lines 212-221): the name is split on single spaces (keeping empty
segments); more than one part gives an AND of prefix matches on the first
two parts, otherwise an OR of prefix matches of the whole name against
both fields. -/
def searchByNameFilter (firstNameField lastNameField name : String) : String :=
  let nameParts := (splitOnPred (fun c => c = ' ') name.data).map String.mk
  if nameParts.length > 1 then
    "(" ++ firstNameField ++ " like " ++ sq ++ nameParts.getD 0 "" ++ "%" ++ sq ++ ") and ("
        ++ lastNameField ++ " like " ++ sq ++ nameParts.getD 1 "" ++ "%" ++ sq ++ ")"
  else
    "(" ++ firstNameField ++ " like " ++ sq ++ name ++ "%" ++ sq ++ ") or ("
        ++ lastNameField ++ " like " ++ sq ++ name ++ "%" ++ sq ++ ")"

/-- `searchByName` (`src/unnamed/part_007` lines 204-228): builds the name
filter and queries; this revision performs no table or field validation. -/
def searchByName (env : Env) (st : State) (serviceName tableName name : String)
    (firstNameField lastNameField : String) (related : Option String) :
    Except String String × State :=
  queryTable env st serviceName tableName
    { filter := some (searchByNameFilter firstNameField lastNameField name)
      related := related
      include_schema := some true }

end DF

namespace DFLib

/-- `queryTable`'s optional parameters (`src/lib/dreamfactory.ts` lines
3-11); this revision has no `related` parameter. -/
structure QueryParams where
  filter : Option String := none
  limit : Option Int := none
  offset : Option Int := none
  order : Option String := none
  fields : Option (List String) := none
  include_count : Option Bool := none
  include_schema : Option Bool := none
deriving DecidableEq

/-- `b.toString()` for a boolean. -/
def boolStr (b : Bool) : String := if b then "true" else "false"

/-- The ordered key/value pairs `queryTable` appends to its
`URLSearchParams` (`src/lib/dreamfactory.ts` lines 134-156).  This
revision sends the filter unmodified and serializes `include_count` /
`include_schema` whenever they are not `undefined` (`!== undefined`). -/
def buildQueryPairs (p : QueryParams) : List (String × String) :=
  (if truthyStr p.filter then [("filter", p.filter.getD "")] else []) ++
  (if truthyInt p.limit then [("limit", toString (p.limit.getD 0))] else []) ++
  (if truthyInt p.offset then [("offset", toString (p.offset.getD 0))] else []) ++
  (if truthyStr p.order then [("order", p.order.getD "")] else []) ++
  (if definedList p.fields then [("fields", String.intercalate "," (p.fields.getD []))] else []) ++
  (match p.include_count with | some b => [("include_count", boolStr b)] | none => []) ++
  (match p.include_schema with | some b => [("include_schema", boolStr b)] | none => [])

/-- The environment of one `DreamFactoryTool` instance of
`src/lib/dreamfactory.ts` (API-key constructor, no session handling). -/
structure Env where
  baseUrl : String
  svcSchemaResp : String → Except String SvcSchema
  tblSchemaResp : String → String → Except String TblSchema
  tableResp : String → Except String String

/-- Mutable state of one instance: the two schema caches and, as the
observable network effect, the trace of URLs passed to `fetch`. -/
structure State where
  cachedSchema : List (String × SvcSchema) := []
  cachedTableSchemas : List (String × TblSchema) := []
  fetches : List String := []
deriving DecidableEq

/-- `makeRequest` (`src/lib/dreamfactory.ts` lines 35-76): the URL is
fetched and the response `r` delivered (or its error thrown). -/
def makeRequest (env : Env) (st : State) (endpoint : String)
    (r : Except String α) : Except String α × State :=
  let st1 : State := { st with fetches := st.fetches ++ [apiUrl env.baseUrl endpoint] }
  (r, st1)

/-- `getServiceSchema` (`src/lib/dreamfactory.ts` lines 83-90). -/
def getServiceSchema (env : Env) (st : State) (serviceName : String) :
    Except String SvcSchema × State :=
  match st.cachedSchema.lookup serviceName with
  | some s => (.ok s, st)
  | none =>
    match makeRequest env st (serviceName ++ "/_schema") (env.svcSchemaResp serviceName) with
    | (.ok s, st1) => (.ok s, { st1 with cachedSchema := st1.cachedSchema ++ [(serviceName, s)] })
    | (.error e, st1) => (.error e, st1)

/-- `getTableSchema` (`src/lib/dreamfactory.ts` lines 92-100). -/
def getTableSchema (env : Env) (st : State) (serviceName tableName : String) :
    Except String TblSchema × State :=
  let cacheKey := serviceName ++ "/" ++ tableName
  match st.cachedTableSchemas.lookup cacheKey with
  | some s => (.ok s, st)
  | none =>
    match makeRequest env st (serviceName ++ "/_schema/" ++ tableName)
        (env.tblSchemaResp serviceName tableName) with
    | (.ok s, st1) =>
      (.ok s, { st1 with cachedTableSchemas := st1.cachedTableSchemas ++ [(cacheKey, s)] })
    | (.error e, st1) => (.error e, st1)

/-- `listTables` (`src/lib/dreamfactory.ts` lines 102-108). -/
def listTables (env : Env) (st : State) (serviceName : String) :
    Except String (List String) × State :=
  match getServiceSchema env st serviceName with
  | (.error e, st1) => (.error e, st1)
  | (.ok schema, st1) =>
    match schema.resource with
    | none => (.ok [], st1)
    | some rs =>
      (.ok ((rs.filter (fun r => !(strStartsWith r.name "_"))).map (fun r => r.name)), st1)

/-- The error message thrown by `queryTable` for an unknown table
(`src/lib/dreamfactory.ts` line 131). -/
def unknownTableMsg (serviceName tableName : String) (tables : List String) : String :=
  "Table \"" ++ tableName ++ "\" does not exist in service \"" ++ serviceName
    ++ "\". Available tables: " ++ String.intercalate ", " tables

/-- `queryTable` (`src/lib/dreamfactory.ts` lines 122-161): verifies the
table against `listTables` before building the query string and issuing
the `_table` request. -/
def queryTable (env : Env) (st : State) (serviceName tableName : String)
    (p : QueryParams) : Except String String × State :=
  match listTables env st serviceName with
  | (.error e, st1) => (.error e, st1)
  | (.ok tables, st1) =>
    if tableName ∈ tables then
      let qs := formSerialize (buildQueryPairs p)
      let endpoint := serviceName ++ "/_table/" ++ tableName ++ (if qs = "" then "" else "?" ++ qs)
      makeRequest env st1 endpoint (env.tableResp endpoint)
    else
      (.error (unknownTableMsg serviceName tableName tables), st1)

/-- The error message thrown by `searchByName` for missing fields
(`src/lib/dreamfactory.ts` line 196). -/
def unknownFieldMsg (firstNameField lastNameField tableName : String)
    (fields : List String) : String :=
  "Fields \"" ++ firstNameField ++ "\" and/or \"" ++ lastNameField
    ++ "\" do not exist in table \"" ++ tableName ++ "\". Available fields: "
    ++ String.intercalate ", " fields

/-- The name filter built by `searchByName` (`src/lib/dreamfactory.ts`
lines 199-209): split on spaces, drop empty parts; two or more terms give
a parenthesized AND of prefix matches, a single term an unparenthesized OR
(an empty term list interpolates JS `undefined`). -/
def searchByNameFilter (firstNameField lastNameField name : String) : String :=
  let terms := ((splitOnPred (fun c => c = ' ') name.data).map String.mk).filter
    (fun t => t ≠ "")
  if terms.length ≥ 2 then
    "(" ++ firstNameField ++ " like " ++ sq ++ terms.getD 0 "undefined" ++ "%" ++ sq
      ++ ") and (" ++ lastNameField ++ " like " ++ sq ++ terms.getD 1 "undefined"
      ++ "%" ++ sq ++ ")"
  else
    firstNameField ++ " like " ++ sq ++ terms.getD 0 "undefined" ++ "%" ++ sq
      ++ " or " ++ lastNameField ++ " like " ++ sq ++ terms.getD 0 "undefined"
      ++ "%" ++ sq

/-- `searchByName` (`src/lib/dreamfactory.ts` lines 178-213): verifies the
table exists, then verifies both name fields against the table schema
(`schema.field?.map(f => f.name) || []`), and only then builds the filter
and queries. -/
def searchByName (env : Env) (st : State) (serviceName tableName name : String)
    (firstNameField lastNameField : String) : Except String String × State :=
  match listTables env st serviceName with
  | (.error e, st1) => (.error e, st1)
  | (.ok tables, st1) =>
    if tableName ∈ tables then
      match getTableSchema env st1 serviceName tableName with
      | (.error e, st2) => (.error e, st2)
      | (.ok schema, st2) =>
        let fields := (schema.field.getD []).map (fun f => f.name)
        if fields.contains firstNameField && fields.contains lastNameField then
          queryTable env st2 serviceName tableName
            { filter := some (searchByNameFilter firstNameField lastNameField name) }
        else
          (.error (unknownFieldMsg firstNameField lastNameField tableName fields), st2)
    else
      (.error (unknownTableMsg serviceName tableName tables), st1)

end DFLib

namespace Orch

/-- A JS `Error` as observed by the handlers: its `name` and `message`. -/
structure JsError where
  name : String
  message : String
deriving DecidableEq

/-- The parsed `arguments` payload of a model function call; `none` models
an absent JSON property (the TS method defaults then apply). -/
structure FnArgs where
  serviceName : String := ""
  tableName : String := ""
  queryParams : Option DF.QueryParams := none
  fieldName : String := ""
  value : String ⊕ Int := Sum.inl ""
  exact : Option Bool := none
  related : Option String := none
  name : String := ""
  firstNameField : Option String := none
  lastNameField : Option String := none
  query : String := ""

/-- A scripted response of the language model: either a function call
(with already-parsed arguments) or a plain answer. -/
inductive ModelTurn
  | fncall (functionName : String) (args : FnArgs)
  | answer (content : String)

/-- The orchestrator's environment: the data-platform client environment
plus the web-search service (its summarized text or a thrown message). -/
structure Env where
  df : DF.Env
  webSearch : String → Except String String

/-- Discard a successful dispatch's payload (its serialization into the
conversation does not matter to the properties below). -/
def unitR : Except String α × DF.State → Except String Unit × DF.State
  | (r, st) => (r.map fun _ => (), st)

/-- The tool-dispatch switch (`src/lib/openai.ts` lines 231-277),
including the `default` branch's `Unknown function` error. -/
def dispatch (env : Env) (st : DF.State) (functionName : String) (args : FnArgs) :
    Except String Unit × DF.State :=
  match functionName with
  | "webSearch" => ((env.webSearch args.query).map fun _ => (), st)
  | "listServices" => unitR (DF.listServices env.df st)
  | "getServiceSchema" => unitR (DF.getServiceSchema env.df st args.serviceName)
  | "getTableSchema" => unitR (DF.getTableSchema env.df st args.serviceName args.tableName)
  | "listTables" => unitR (DF.listTables env.df st args.serviceName)
  | "queryTable" =>
    unitR (DF.queryTable env.df st args.serviceName args.tableName (args.queryParams.getD {}))
  | "searchTableByField" =>
    unitR (DF.searchTableByField env.df st args.serviceName args.tableName args.fieldName
      args.value (args.exact.getD true) args.related)
  | "searchByName" =>
    unitR (DF.searchByName env.df st args.serviceName args.tableName args.name
      (args.firstNameField.getD "first_name") (args.lastNameField.getD "last_name") args.related)
  | other => (.error ("Unknown function: " ++ other), st)

/-- The 403 / "Access Forbidden" signature test used by both error
handlers (`src/lib/openai.ts` lines 280 and 310-312). -/
def isForbiddenSig (msg : String) : Bool :=
  strIncludes msg "403" && strIncludes msg "Access Forbidden"

/-- The tool-dispatch error handler (`src/lib/openai.ts` lines 278-286):
a 403 "Access Forbidden" failure is re-thrown under the stable name
`DreamFactoryError`; everything else is re-thrown unchanged. -/
def innerTag (e : JsError) : JsError :=
  if isForbiddenSig e.message then { name := "DreamFactoryError", message := e.message } else e

/-- The chat-level error handler (`src/lib/openai.ts` lines 308-319). -/
def outerTag (e : JsError) : JsError :=
  if e.name == "DreamFactoryError" || isForbiddenSig e.message then
    { name := "DreamFactoryError", message := e.message }
  else e

/-- `OpenAIService.chat` (`src/lib/openai.ts` lines 211-320) driven by a
scripted model.  Every invocation first clears the endpoint log (line
214).  A scripted function call is dispatched (its serialized result is
appended to the conversation, which the scripted model ignores) and `chat`
recurses on the remaining script, exactly as the source re-enters
`this.chat(messages)`; a plain answer returns the content together with
`getRequestedEndpoints()`.  Dispatch failures pass through the inner
handler, and every failure unwinding through a `chat` level passes through
the outer handler. -/
def chat (env : Env) : List ModelTurn → DF.State →
    Except JsError (String × List String) × DF.State
  | [], st =>
    (.error ⟨"Error", "No scripted model response"⟩,
      { st with requestedEndpoints := [] })
  | .answer content :: _, st =>
    let st0 : DF.State := { st with requestedEndpoints := [] }
    (.ok (content, st0.requestedEndpoints), st0)
  | .fncall fn args :: rest, st =>
    let st0 : DF.State := { st with requestedEndpoints := [] }
    match dispatch env st0 fn args with
    | (.error msg, st1) => (.error (outerTag (innerTag ⟨"Error", msg⟩)), st1)
    | (.ok _, st1) =>
      match chat env rest st1 with
      | (.error e, st2) => (.error (outerTag e), st2)
      | r => r

end Orch

namespace SpecModel

/-- Case-insensitive match of the two characters of the word `or`. -/
def isWordOr (o r : Char) : Bool := (o.toLower = 'o') && (r.toLower = 'r')

/-- Written from the spec's words (not from the source): the `or`
counterpart of `DF.collapseAndGo`, collapsing whitespace around an `or`
connector to single spaces. -/
def collapseOrGo : Bool → List Char → List Char → List Char
  | _, pend, [] => pend
  | true, _, c :: cs =>
    if c.isWhitespace then collapseOrGo true [] cs
    else c :: collapseOrGo false [] cs
  | false, pend, c :: cs =>
    if c.isWhitespace then collapseOrGo false (pend ++ [c]) cs
    else if pend.isEmpty then c :: collapseOrGo false [] cs
    else
      match cs with
      | r :: rest =>
        if isWordOr c r && DF.headIsWs rest then
          ' ' :: 'o' :: 'r' :: ' ' :: collapseOrGo true [] rest
        else pend ++ (c :: collapseOrGo false [] (r :: rest))
      | [] => pend ++ [c]

/-- Written from the spec's words (`spec.md` §4.1): filter normalization
collapsing whitespace around `=` and around BOTH boolean connectors `and`
and `or` to the single canonical form, then wrapping in parentheses when
the expression does not already start with one.  This is the comparison
point for the claim that the code normalizes both connectors. -/
def specNormalizeFilter (f : String) : String :=
  let g := String.mk (collapseOrGo false []
    (DF.collapseAndWs (DF.collapseCloseWs (DF.collapseOpenWs (DF.collapseEqWs f.data)))))
  if strStartsWith g "(" then g else "(" ++ g ++ ")"

end SpecModel

/-- A character pair in which no whitespace stands directly next to an
equals sign. -/
def okPairEq (a b : Char) : Bool :=
  !((a = '=' && b.isWhitespace) || (a.isWhitespace && b = '='))

/-- No whitespace character directly adjacent to any `=` in the list. -/
def noWsAdjEq : List Char → Bool
  | [] => true
  | [_] => true
  | a :: b :: t => okPairEq a b && noWsAdjEq (b :: t)

/-- Concrete environment for the end-to-end endpoint-log run: a
`sqlserver` service exposing `Application.Cities`, reachable with a live
session. -/
def c1Env : Orch.Env where
  df :=
    { baseUrl := "http://localhost:8080"
      sessionToken := some "session-token"
      servicesResp := .ok (some ["sqlserver"])
      svcSchemaResp := fun s =>
        if s = "sqlserver" then .ok ⟨some [⟨"Application.Cities"⟩]⟩
        else .error "Failed to fetch from DreamFactory: 404 Not Found"
      tblSchemaResp := fun _ _ => .ok ⟨some [⟨"CityName"⟩]⟩
      tableResp := fun _ => .ok "resource" }
  webSearch := fun _ => .ok "results"

/-- The scripted model of the end-to-end run: `listTables("sqlserver")`,
then a filtered `queryTable`, then a plain answer. -/
def c1Script : List Orch.ModelTurn :=
  [ .fncall "listTables" { serviceName := "sqlserver" }
  , .fncall "queryTable"
      { serviceName := "sqlserver"
        tableName := "Application.Cities"
        queryParams := some { filter := some ("(CityName like " ++ sq ++ "Abbeville%" ++ sq ++ ")") } }
  , .answer "Answer: Abbeville." ]

/-- C3: for a search phrase with more than one whitespace-separated token,
against a table whose candidate string fields contain at least two
name-fields, the generalized search builds an AND of exactly
`min #tokens #nameFields` prefix-match conditions, pairing the i-th token
with the i-th name-field in positional order. -/
theorem c3_search_filter_multi_token_and_of_name_fields
    (fs : List ST.SchemaField) (phrase : String)
    (h1 : 1 < (jsTrimSplitWs phrase).length)
    (h2 : 2 ≤ (ST.nameFieldsOf (ST.stringFieldsOf fs)).length) :
    ∃ conds : List String,
      ST.searchFilter fs phrase = String.intercalate " and " conds ∧
      conds.length =
        min (jsTrimSplitWs phrase).length
            (ST.nameFieldsOf (ST.stringFieldsOf fs)).length ∧
      ∀ i, i < conds.length →
        conds.getD i "" =
          ST.likeCond ((ST.nameFieldsOf (ST.stringFieldsOf fs)).getD i default).name
            ((jsTrimSplitWs phrase).getD i "") := by
  refine ⟨List.zipWith (fun f t => ST.likeCond f.name t)
      (ST.nameFieldsOf (ST.stringFieldsOf fs)) (jsTrimSplitWs phrase), ?_, ?_, ?_⟩
  · rw [ST.searchFilter]
    simp only [if_pos h1, if_pos h2]
  · rw [List.length_zipWith, Nat.min_comm]
  · intro i hi
    rw [List.length_zipWith] at hi
    rw [List.getD_eq_getElem _ _ (by rw [List.length_zipWith]; exact hi),
      List.getElem_zipWith,
      List.getD_eq_getElem _ _ (lt_of_lt_of_le hi (Nat.min_le_right _ _)),
      List.getD_eq_getElem _ _ (lt_of_lt_of_le hi (Nat.min_le_left _ _))]

/-- C3 witness: a concrete two-token phrase against a schema with two
name-fields. -/
theorem c3_search_filter_multi_token_and_of_name_fields_witness :
    1 < (jsTrimSplitWs "Jane Doe").length ∧
    2 ≤ (ST.nameFieldsOf (ST.stringFieldsOf
          [⟨"first_name", "string", none⟩, ⟨"last_name", "string", none⟩,
           ⟨"city", "string", some "City"⟩])).length ∧
    ∃ conds : List String,
      ST.searchFilter
          [⟨"first_name", "string", none⟩, ⟨"last_name", "string", none⟩,
           ⟨"city", "string", some "City"⟩] "Jane Doe" =
        String.intercalate " and " conds ∧
      conds.length =
        min (jsTrimSplitWs "Jane Doe").length
            (ST.nameFieldsOf (ST.stringFieldsOf
              [⟨"first_name", "string", none⟩, ⟨"last_name", "string", none⟩,
               ⟨"city", "string", some "City"⟩])).length ∧
      ∀ i, i < conds.length →
        conds.getD i "" =
          ST.likeCond ((ST.nameFieldsOf (ST.stringFieldsOf
              [⟨"first_name", "string", none⟩, ⟨"last_name", "string", none⟩,
               ⟨"city", "string", some "City"⟩])).getD i default).name
            ((jsTrimSplitWs "Jane Doe").getD i "") :=
  ⟨by decide, by decide,
    c3_search_filter_multi_token_and_of_name_fields _ _ (by decide) (by decide)⟩

/-- C9: when the candidate field set is empty, the generalized search fails
with the no-searchable-fields error and the table-query request is never
issued (only the schema fetch appears in the trace). -/
theorem c9_search_table_no_searchable_fields
    (env : ST.Env) (baseUrl : String) (st : ST.RunState)
    (service table term : String) (fs : List ST.SchemaField)
    (henv : env.tableSchema service table = some ⟨some fs⟩)
    (hempty : ST.stringFieldsOf fs = []) :
    (ST.searchTable env baseUrl st service table term).1 =
      .error ("No searchable string fields found in table " ++ table) ∧
    (ST.searchTable env baseUrl st service table term).2.fetches =
      st.fetches ++ [ST.getUrl baseUrl (service ++ "/_schema/" ++ table)] := by
  rw [ST.searchTable]
  simp [henv, hempty]

/-- C9 witness: a schema whose only field is an integer. -/
theorem c9_search_table_no_searchable_fields_witness :
    (ST.Env.mk (fun s t =>
        if s = "mysql" ∧ t = "metrics" then some ⟨some [⟨"id", "integer", none⟩]⟩
        else none)).tableSchema "mysql" "metrics" =
      some ⟨some [⟨"id", "integer", none⟩]⟩ ∧
    ST.stringFieldsOf [⟨"id", "integer", none⟩] = [] ∧
    (ST.searchTable
        (ST.Env.mk (fun s t =>
          if s = "mysql" ∧ t = "metrics" then some ⟨some [⟨"id", "integer", none⟩]⟩
          else none))
        "http://localhost:8080" ⟨[]⟩ "mysql" "metrics" "abc").1 =
      .error ("No searchable string fields found in table " ++ "metrics") ∧
    (ST.searchTable
        (ST.Env.mk (fun s t =>
          if s = "mysql" ∧ t = "metrics" then some ⟨some [⟨"id", "integer", none⟩]⟩
          else none))
        "http://localhost:8080" ⟨[]⟩ "mysql" "metrics" "abc").2.fetches =
      [] ++ [ST.getUrl "http://localhost:8080" ("mysql" ++ "/_schema/" ++ "metrics")] :=
  ⟨by decide, by decide,
    (c9_search_table_no_searchable_fields
      (ST.Env.mk (fun s t =>
        if s = "mysql" ∧ t = "metrics" then some ⟨some [⟨"id", "integer", none⟩]⟩
        else none))
      "http://localhost:8080" ⟨[]⟩ "mysql" "metrics" "abc"
      [⟨"id", "integer", none⟩] (by decide) (by decide)).1,
    (c9_search_table_no_searchable_fields
      (ST.Env.mk (fun s t =>
        if s = "mysql" ∧ t = "metrics" then some ⟨some [⟨"id", "integer", none⟩]⟩
        else none))
      "http://localhost:8080" ⟨[]⟩ "mysql" "metrics" "abc"
      [⟨"id", "integer", none⟩] (by decide) (by decide)).2⟩

theorem lookup_append_of_none {β : Type} (l1 l2 : List (String × β)) (k : String)
    (h : l1.lookup k = none) : (l1 ++ l2).lookup k = l2.lookup k := by
  induction l1 with
  | nil => rfl
  | cons a t ih =>
    obtain ⟨k1, v1⟩ := a
    rw [List.cons_append]
    cases hk : (k == k1) with
    | true => simp [List.lookup, hk] at h
    | false =>
      simp only [List.lookup, hk] at h ⊢
      exact ih h

theorem lookup_single_self {β : Type} (k : String) (v : β) :
    ([(k, v)] : List (String × β)).lookup k = some v := by
  simp [List.lookup]

/-- C7: schema retrieval is cached per key: with a cold cache and a live
session, the first `getTableSchema` (resp. `getServiceSchema`) call
performs exactly one fetch, recording one URL and filling the cache, and
an immediately repeated call returns the same value with a completely
unchanged state — no new request. -/
theorem c7_schema_caching_single_fetch
    (env : DF.Env) (st : DF.State) (service table tok : String)
    (svc : SvcSchema) (tbl : TblSchema)
    (htok : env.sessionToken = some tok)
    (hsvc : env.svcSchemaResp service = .ok svc)
    (htbl : env.tblSchemaResp service table = .ok tbl)
    (hmiss1 : st.cachedTableSchemas.lookup (service ++ "/" ++ table) = none)
    (hmiss2 : st.cachedSchema.lookup service = none) :
    (DF.getTableSchema env st service table =
        (.ok tbl,
          { st with
            cachedTableSchemas := st.cachedTableSchemas ++ [(service ++ "/" ++ table, tbl)]
            requestedEndpoints :=
              st.requestedEndpoints ++ [apiUrl env.baseUrl (service ++ "/_schema/" ++ table)] }) ∧
      DF.getTableSchema env (DF.getTableSchema env st service table).2 service table =
        (.ok tbl, (DF.getTableSchema env st service table).2)) ∧
    (DF.getServiceSchema env st service =
        (.ok svc,
          { st with
            cachedSchema := st.cachedSchema ++ [(service, svc)]
            requestedEndpoints :=
              st.requestedEndpoints ++ [apiUrl env.baseUrl (service ++ "/_schema")] }) ∧
      DF.getServiceSchema env (DF.getServiceSchema env st service).2 service =
        (.ok svc, (DF.getServiceSchema env st service).2)) := by
  have h1 : DF.getTableSchema env st service table =
      (.ok tbl,
        { st with
          cachedTableSchemas := st.cachedTableSchemas ++ [(service ++ "/" ++ table, tbl)]
          requestedEndpoints :=
            st.requestedEndpoints ++ [apiUrl env.baseUrl (service ++ "/_schema/" ++ table)] }) := by
    simp [DF.getTableSchema, DF.makeRequest, hmiss1, htok, htbl]
  have h2 : DF.getServiceSchema env st service =
      (.ok svc,
        { st with
          cachedSchema := st.cachedSchema ++ [(service, svc)]
          requestedEndpoints :=
            st.requestedEndpoints ++ [apiUrl env.baseUrl (service ++ "/_schema")] }) := by
    simp [DF.getServiceSchema, DF.makeRequest, hmiss2, htok, hsvc]
  refine ⟨⟨h1, ?_⟩, h2, ?_⟩
  · rw [h1]
    simp [DF.getTableSchema, lookup_append_of_none _ _ _ hmiss1, lookup_single_self]
  · rw [h2]
    simp [DF.getServiceSchema, lookup_append_of_none _ _ _ hmiss2, lookup_single_self]

/-- C7 witness: cold caches against a one-service environment. -/
theorem c7_schema_caching_single_fetch_witness :
    (DF.Env.mk "http://localhost:8080" (some "tok") (.ok none)
        (fun _ => .ok ⟨some [⟨"employees"⟩]⟩) (fun _ _ => .ok ⟨some [⟨"emp_no"⟩]⟩)
        (fun _ => .ok "resource")).sessionToken = some "tok" ∧
    (DF.getTableSchema
        (DF.Env.mk "http://localhost:8080" (some "tok") (.ok none)
          (fun _ => .ok ⟨some [⟨"employees"⟩]⟩) (fun _ _ => .ok ⟨some [⟨"emp_no"⟩]⟩)
          (fun _ => .ok "resource"))
        {} "mysql" "employees").1 = .ok ⟨some [⟨"emp_no"⟩]⟩ ∧
    DF.getTableSchema
        (DF.Env.mk "http://localhost:8080" (some "tok") (.ok none)
          (fun _ => .ok ⟨some [⟨"employees"⟩]⟩) (fun _ _ => .ok ⟨some [⟨"emp_no"⟩]⟩)
          (fun _ => .ok "resource"))
        (DF.getTableSchema
          (DF.Env.mk "http://localhost:8080" (some "tok") (.ok none)
            (fun _ => .ok ⟨some [⟨"employees"⟩]⟩) (fun _ _ => .ok ⟨some [⟨"emp_no"⟩]⟩)
            (fun _ => .ok "resource"))
          {} "mysql" "employees").2 "mysql" "employees" =
      (.ok ⟨some [⟨"emp_no"⟩]⟩,
        (DF.getTableSchema
          (DF.Env.mk "http://localhost:8080" (some "tok") (.ok none)
            (fun _ => .ok ⟨some [⟨"employees"⟩]⟩) (fun _ _ => .ok ⟨some [⟨"emp_no"⟩]⟩)
            (fun _ => .ok "resource"))
          {} "mysql" "employees").2) := by
  refine ⟨rfl, ?_, ?_⟩
  · rw [((c7_schema_caching_single_fetch _ {} "mysql" "employees" "tok"
      ⟨some [⟨"employees"⟩]⟩ ⟨some [⟨"emp_no"⟩]⟩ rfl rfl rfl rfl rfl).1).1]
  · exact ((c7_schema_caching_single_fetch _ {} "mysql" "employees" "tok"
      ⟨some [⟨"employees"⟩]⟩ ⟨some [⟨"emp_no"⟩]⟩ rfl rfl rfl rfl rfl).1).2

/-- C10: `queryTable` includes the `limit` and `offset` parameters only
when truthy, so a zero value yields the same parameter list — and hence
the same request URL — as an absent one, with no `limit`/`offset` key
emitted; this holds in both revisions of the client. -/
theorem c10_zero_limit_offset_treated_as_absent
    (p : DF.QueryParams) (q : DFLib.QueryParams) (env : DF.Env) (st : DF.State)
    (service table : String) :
    (p.limit = some 0 →
      DF.buildQueryPairs p = DF.buildQueryPairs { p with limit := none } ∧
      (∀ kv ∈ DF.buildQueryPairs p, kv.1 ≠ "limit") ∧
      DF.queryTable env st service table p =
        DF.queryTable env st service table { p with limit := none }) ∧
    (p.offset = some 0 →
      DF.buildQueryPairs p = DF.buildQueryPairs { p with offset := none } ∧
      (∀ kv ∈ DF.buildQueryPairs p, kv.1 ≠ "offset") ∧
      DF.queryTable env st service table p =
        DF.queryTable env st service table { p with offset := none }) ∧
    (q.limit = some 0 →
      DFLib.buildQueryPairs q = DFLib.buildQueryPairs { q with limit := none }) ∧
    (q.offset = some 0 →
      DFLib.buildQueryPairs q = DFLib.buildQueryPairs { q with offset := none }) := by
  refine ⟨fun h => ⟨?_, ?_, ?_⟩, fun h => ⟨?_, ?_, ?_⟩, fun h => ?_, fun h => ?_⟩
  · simp [DF.buildQueryPairs, h, truthyInt]
  · intro kv hkv
    simp only [DF.buildQueryPairs, h, truthyInt] at hkv
    simp only [List.mem_append] at hkv
    rcases hkv with ((((((h1 | h1) | h1) | h1) | h1) | h1) | h1) | h1 <;>
      (first
        | (split at h1 <;> simp_all)
        | simp_all)
  · rw [DF.queryTable, DF.queryTable, DF.queryEndpoint, DF.queryEndpoint]
    simp [DF.buildQueryPairs, h, truthyInt]
  · simp [DF.buildQueryPairs, h, truthyInt]
  · intro kv hkv
    simp only [DF.buildQueryPairs, h, truthyInt] at hkv
    simp only [List.mem_append] at hkv
    rcases hkv with ((((((h1 | h1) | h1) | h1) | h1) | h1) | h1) | h1 <;>
      (first
        | (split at h1 <;> simp_all)
        | simp_all)
  · rw [DF.queryTable, DF.queryTable, DF.queryEndpoint, DF.queryEndpoint]
    simp [DF.buildQueryPairs, h, truthyInt]
  · simp [DFLib.buildQueryPairs, h, truthyInt]
  · simp [DFLib.buildQueryPairs, h, truthyInt]

/-- C10 witness: a query with `limit = 0` and `offset = 0`. -/
theorem c10_zero_limit_offset_treated_as_absent_witness :
    (({ limit := some 0, offset := some 0 } : DF.QueryParams).limit = some 0) ∧
    DF.buildQueryPairs { limit := some 0, offset := some 0 } =
      DF.buildQueryPairs { limit := none, offset := some 0 } ∧
    (∀ kv ∈ DF.buildQueryPairs ({ limit := some 0, offset := some 0 } : DF.QueryParams),
      kv.1 ≠ "limit") := by
  refine ⟨rfl, ?_, ?_⟩
  · exact ((c10_zero_limit_offset_treated_as_absent
      { limit := some 0, offset := some 0 } {}
      (DF.Env.mk "" none (.ok none) (fun _ => .error "") (fun _ _ => .error "")
        (fun _ => .error ""))
      {} "" "").1 rfl).1
  · exact ((c10_zero_limit_offset_treated_as_absent
      { limit := some 0, offset := some 0 } {}
      (DF.Env.mk "" none (.ok none) (fun _ => .error "") (fun _ _ => .error "")
        (fun _ => .error ""))
      {} "" "").1 rfl).2.1

theorem dflib_getServiceSchema_fetches (env : DFLib.Env) (st : DFLib.State) (s : String) :
    (DFLib.getServiceSchema env st s).2.fetches = st.fetches ∨
    (DFLib.getServiceSchema env st s).2.fetches =
      st.fetches ++ [apiUrl env.baseUrl (s ++ "/_schema")] := by
  rw [DFLib.getServiceSchema]
  cases hl : st.cachedSchema.lookup s with
  | some v => simp
  | none =>
    cases hr : env.svcSchemaResp s with
    | ok v => simp [DFLib.makeRequest, hr]
    | error e => simp [DFLib.makeRequest, hr]

theorem dflib_getTableSchema_fetches (env : DFLib.Env) (st : DFLib.State) (s t : String) :
    (DFLib.getTableSchema env st s t).2.fetches = st.fetches ∨
    (DFLib.getTableSchema env st s t).2.fetches =
      st.fetches ++ [apiUrl env.baseUrl (s ++ "/_schema/" ++ t)] := by
  rw [DFLib.getTableSchema]
  cases hl : st.cachedTableSchemas.lookup (s ++ "/" ++ t) with
  | some v => simp
  | none =>
    cases hr : env.tblSchemaResp s t with
    | ok v => simp [DFLib.makeRequest, hr]
    | error e => simp [DFLib.makeRequest, hr]

theorem dflib_listTables_snd (env : DFLib.Env) (st : DFLib.State) (s : String) :
    (DFLib.listTables env st s).2 = (DFLib.getServiceSchema env st s).2 := by
  rw [DFLib.listTables]
  rcases h : DFLib.getServiceSchema env st s with ⟨r, st1⟩
  cases r with
  | error e => simp
  | ok schema => cases hres : schema.resource <;> simp [hres]

/-- C2: `queryTable` called with a table that `listTables` does not report
fails with the unknown-table error carrying the valid table names, and the
`_table` network request is never issued (the only fetch that can occur is
the `_schema` one performed by `listTables`). -/
theorem c2_query_table_unknown_table_rejected
    (env : DFLib.Env) (st : DFLib.State) (service table : String) (p : DFLib.QueryParams)
    (tables : List String) (st1 : DFLib.State)
    (hlist : DFLib.listTables env st service = (.ok tables, st1))
    (habs : table ∉ tables) :
    DFLib.queryTable env st service table p =
      (.error (DFLib.unknownTableMsg service table tables), st1) ∧
    ((DFLib.queryTable env st service table p).2.fetches = st.fetches ∨
     (DFLib.queryTable env st service table p).2.fetches =
       st.fetches ++ [apiUrl env.baseUrl (service ++ "/_schema")]) := by
  have hq : DFLib.queryTable env st service table p =
      (.error (DFLib.unknownTableMsg service table tables), st1) := by
    rw [DFLib.queryTable, hlist]
    simp [habs]
  refine ⟨hq, ?_⟩
  rw [hq]
  have h2 : st1.fetches = (DFLib.getServiceSchema env st service).2.fetches := by
    have := dflib_listTables_snd env st service
    rw [hlist] at this
    exact congrArg DFLib.State.fetches this
  rw [h2]
  exact dflib_getServiceSchema_fetches env st service

/-- C2 witness: the `departments` table is not among the listed tables. -/
theorem c2_query_table_unknown_table_rejected_witness :
    DFLib.listTables
        (DFLib.Env.mk "http://localhost:8080"
          (fun _ => .ok ⟨some [⟨"employees"⟩, ⟨"_meta"⟩]⟩)
          (fun _ _ => .error "unused") (fun _ => .error "unused"))
        {} "mysql" =
      (.ok ["employees"],
        ({ cachedSchema := [("mysql", ⟨some [⟨"employees"⟩, ⟨"_meta"⟩]⟩)]
           cachedTableSchemas := []
           fetches := ["http://localhost:8080/api/v2/mysql/_schema"] } : DFLib.State)) ∧
    "departments" ∉ ["employees"] ∧
    DFLib.queryTable
        (DFLib.Env.mk "http://localhost:8080"
          (fun _ => .ok ⟨some [⟨"employees"⟩, ⟨"_meta"⟩]⟩)
          (fun _ _ => .error "unused") (fun _ => .error "unused"))
        {} "mysql" "departments" {} =
      (.error (DFLib.unknownTableMsg "mysql" "departments" ["employees"]),
        ({ cachedSchema := [("mysql", ⟨some [⟨"employees"⟩, ⟨"_meta"⟩]⟩)]
           cachedTableSchemas := []
           fetches := ["http://localhost:8080/api/v2/mysql/_schema"] } : DFLib.State)) :=
  ⟨by decide, by decide,
    (c2_query_table_unknown_table_rejected
      (DFLib.Env.mk "http://localhost:8080"
        (fun _ => .ok ⟨some [⟨"employees"⟩, ⟨"_meta"⟩]⟩)
        (fun _ _ => .error "unused") (fun _ => .error "unused"))
      {} "mysql" "departments" {} ["employees"]
      ({ cachedSchema := [("mysql", ⟨some [⟨"employees"⟩, ⟨"_meta"⟩]⟩)]
         cachedTableSchemas := []
         fetches := ["http://localhost:8080/api/v2/mysql/_schema"] } : DFLib.State)
      (by decide) (by decide)).1⟩

/-- C5: `searchByName` verifies both name fields against the table schema
before building any filter; a missing field fails with the unknown-field
error carrying the valid field names, and the `_table` query request is
never issued (every fetch performed is one of the two `_schema` ones). -/
theorem c5_search_by_name_unknown_field_rejected
    (env : DFLib.Env) (st : DFLib.State) (service table name fnf lnf : String)
    (tables : List String) (st1 : DFLib.State)
    (schema : TblSchema) (st2 : DFLib.State)
    (hlist : DFLib.listTables env st service = (.ok tables, st1))
    (hmem : table ∈ tables)
    (hsch : DFLib.getTableSchema env st1 service table = (.ok schema, st2))
    (hfield : (((schema.field.getD []).map (fun f => f.name)).contains fnf &&
               ((schema.field.getD []).map (fun f => f.name)).contains lnf) = false) :
    DFLib.searchByName env st service table name fnf lnf =
      (.error (DFLib.unknownFieldMsg fnf lnf table
        ((schema.field.getD []).map (fun f => f.name))), st2) ∧
    (∀ u ∈ (DFLib.searchByName env st service table name fnf lnf).2.fetches,
      u ∈ st.fetches ∨
      u = apiUrl env.baseUrl (service ++ "/_schema") ∨
      u = apiUrl env.baseUrl (service ++ "/_schema/" ++ table)) := by
  have hq : DFLib.searchByName env st service table name fnf lnf =
      (.error (DFLib.unknownFieldMsg fnf lnf table
        ((schema.field.getD []).map (fun f => f.name))), st2) := by
    rw [DFLib.searchByName, hlist]
    simp only [hmem, if_pos]
    rw [hsch]
    simp only [hfield, Bool.false_eq_true, if_false]
  refine ⟨hq, ?_⟩
  rw [hq]
  intro u hu
  have h2 : st1.fetches = (DFLib.getServiceSchema env st service).2.fetches := by
    have := dflib_listTables_snd env st service
    rw [hlist] at this
    exact congrArg DFLib.State.fetches this
  have hsvc := dflib_getServiceSchema_fetches env st service
  have htbl := dflib_getTableSchema_fetches env st1 service table
  rw [hsch] at htbl
  rcases htbl with htbl | htbl <;> rw [htbl] at hu
  · rw [h2] at hu
    rcases hsvc with hsvc | hsvc <;> rw [hsvc] at hu
    · exact Or.inl hu
    · rcases List.mem_append.mp hu with h | h
      · exact Or.inl h
      · exact Or.inr (Or.inl (List.mem_singleton.mp h))
  · rcases List.mem_append.mp hu with h | h
    · rw [h2] at h
      rcases hsvc with hsvc | hsvc <;> rw [hsvc] at h
      · exact Or.inl h
      · rcases List.mem_append.mp h with h | h
        · exact Or.inl h
        · exact Or.inr (Or.inl (List.mem_singleton.mp h))
    · exact Or.inr (Or.inr (List.mem_singleton.mp h))

/-- C5 witness: the `Cities` table has no `first_name`/`last_name`. -/
theorem c5_search_by_name_unknown_field_rejected_witness :
    "Cities" ∈ ["Cities"] ∧
    DFLib.searchByName
        (DFLib.Env.mk "http://localhost:8080"
          (fun _ => .ok ⟨some [⟨"Cities"⟩]⟩)
          (fun _ _ => .ok ⟨some [⟨"CityID"⟩, ⟨"CityName"⟩]⟩)
          (fun _ => .error "unused"))
        {} "sqlserver" "Cities" "Jane Doe" "first_name" "last_name" =
      (.error (DFLib.unknownFieldMsg "first_name" "last_name" "Cities"
        ["CityID", "CityName"]),
        ({ cachedSchema := [("sqlserver", ⟨some [⟨"Cities"⟩]⟩)]
           cachedTableSchemas := [("sqlserver/Cities", ⟨some [⟨"CityID"⟩, ⟨"CityName"⟩]⟩)]
           fetches := ["http://localhost:8080/api/v2/sqlserver/_schema",
                       "http://localhost:8080/api/v2/sqlserver/_schema/Cities"] } : DFLib.State)) :=
  ⟨by decide,
    (c5_search_by_name_unknown_field_rejected
      (DFLib.Env.mk "http://localhost:8080"
        (fun _ => .ok ⟨some [⟨"Cities"⟩]⟩)
        (fun _ _ => .ok ⟨some [⟨"CityID"⟩, ⟨"CityName"⟩]⟩)
        (fun _ => .error "unused"))
      {} "sqlserver" "Cities" "Jane Doe" "first_name" "last_name"
      ["Cities"]
      ({ cachedSchema := [("sqlserver", ⟨some [⟨"Cities"⟩]⟩)]
         cachedTableSchemas := []
         fetches := ["http://localhost:8080/api/v2/sqlserver/_schema"] } : DFLib.State)
      ⟨some [⟨"CityID"⟩, ⟨"CityName"⟩]⟩
      ({ cachedSchema := [("sqlserver", ⟨some [⟨"Cities"⟩]⟩)]
         cachedTableSchemas := [("sqlserver/Cities", ⟨some [⟨"CityID"⟩, ⟨"CityName"⟩]⟩)]
         fetches := ["http://localhost:8080/api/v2/sqlserver/_schema",
                     "http://localhost:8080/api/v2/sqlserver/_schema/Cities"] } : DFLib.State)
      (by decide) (by decide) (by decide) (by decide)).1⟩

theorem splitOnPred_no_sep (p : Char → Bool) (l : List Char)
    (h : ∀ c ∈ l, p c = false) : splitOnPred p l = [l] := by
  induction l with
  | nil => rfl
  | cons c t ih =>
    simp only [splitOnPred, h c (List.mem_cons_self c t), Bool.false_eq_true, if_false]
    rw [ih (fun x hx => h x (List.mem_cons_of_mem c hx))]

theorem splitOnPred_sep (p : Char → Bool) (l1 : List Char) (c0 : Char) (l2 : List Char)
    (h1 : ∀ c ∈ l1, p c = false) (hc : p c0 = true) :
    splitOnPred p (l1 ++ c0 :: l2) = l1 :: splitOnPred p l2 := by
  induction l1 with
  | nil => simp [splitOnPred, hc]
  | cons c t ih =>
    simp only [List.cons_append, splitOnPred, h1 c (List.mem_cons_self c t),
      Bool.false_eq_true, if_false, List.append_eq]
    rw [ih (fun x hx => h1 x (List.mem_cons_of_mem c hx))]

/-- C4 counterexample: with the two-space name `"Jane  Doe"` the
whitespace-token reading of the claim demands
`(first_name like 'Jane%') and (last_name like 'Doe%')`, but
`searchByName` splits on single spaces keeping empty segments and builds
an empty second prefix pattern instead. -/
theorem c4_search_by_name_two_spaces_counterexample :
    DF.searchByNameFilter "first_name" "last_name" "Jane  Doe" =
      "(first_name like " ++ sq ++ "Jane%" ++ sq ++ ") and (last_name like "
        ++ sq ++ "%" ++ sq ++ ")" ∧
    DF.searchByNameFilter "first_name" "last_name" "Jane  Doe" ≠
      "(first_name like " ++ sq ++ "Jane%" ++ sq ++ ") and (last_name like "
        ++ sq ++ "Doe%" ++ sq ++ ")" := by
  exact ⟨by decide, by decide⟩

/-- C4 (amended): `searchByName` splits the name on single space
characters, keeping empty segments; when the split yields more than one
part it builds the parenthesized AND of prefix matches of the first two
parts (so for two space-free parts around one space, exactly the claimed
AND filter), and when it yields exactly one part it builds the
parenthesized OR of prefix matches of the whole name against both fields;
a double space makes the second prefix pattern empty. -/
theorem c4_search_by_name_filter_split_behaviour
    (f l t1 t2 : String)
    (h1 : ∀ c ∈ t1.data, c ≠ ' ') (h2 : ∀ c ∈ t2.data, c ≠ ' ') :
    DF.searchByNameFilter f l (t1 ++ " " ++ t2) =
      "(" ++ f ++ " like " ++ sq ++ t1 ++ "%" ++ sq ++ ") and ("
        ++ l ++ " like " ++ sq ++ t2 ++ "%" ++ sq ++ ")" ∧
    (∀ t : String, (∀ c ∈ t.data, c ≠ ' ') →
      DF.searchByNameFilter f l t =
        "(" ++ f ++ " like " ++ sq ++ t ++ "%" ++ sq ++ ") or ("
          ++ l ++ " like " ++ sq ++ t ++ "%" ++ sq ++ ")") ∧
    DF.searchByNameFilter "first_name" "last_name" "Jane  Doe" =
      "(first_name like " ++ sq ++ "Jane%" ++ sq ++ ") and (last_name like "
        ++ sq ++ "%" ++ sq ++ ")" := by
  refine ⟨?_, ?_, by decide⟩
  · have hd : (t1 ++ " " ++ t2).data = t1.data ++ ' ' :: t2.data := by
      rw [String.data_append, String.data_append]
      simp
    have hsplit : splitOnPred (fun c => c = ' ') (t1 ++ " " ++ t2).data =
        [t1.data, t2.data] := by
      rw [hd,
        splitOnPred_sep _ _ _ _ (fun c hc => decide_eq_false (h1 c hc)) (by decide),
        splitOnPred_no_sep _ _ (fun c hc => decide_eq_false (h2 c hc))]
    rw [DF.searchByNameFilter]
    simp only [hsplit, List.map_cons, List.map_nil]
    simp [List.getD]
  · intro t ht
    have hsplit : splitOnPred (fun c => c = ' ') t.data = [t.data] :=
      splitOnPred_no_sep _ _ (fun c hc => decide_eq_false (ht c hc))
    rw [DF.searchByNameFilter]
    simp only [hsplit, List.map_cons, List.map_nil]
    simp

/-- C4 witness: the concrete names from the claim. -/
theorem c4_search_by_name_filter_split_behaviour_witness :
    (∀ c ∈ "Jane".data, c ≠ ' ') ∧ (∀ c ∈ "Doe".data, c ≠ ' ') ∧
    DF.searchByNameFilter "first_name" "last_name" ("Jane" ++ " " ++ "Doe") =
      "(first_name like " ++ sq ++ "Jane%" ++ sq ++ ") and (last_name like "
        ++ sq ++ "Doe%" ++ sq ++ ")" ∧
    DF.searchByNameFilter "first_name" "last_name" "Jane" =
      "(first_name like " ++ sq ++ "Jane%" ++ sq ++ ") or (last_name like "
        ++ sq ++ "Jane%" ++ sq ++ ")" :=
  ⟨by decide, by decide,
    (c4_search_by_name_filter_split_behaviour "first_name" "last_name" "Jane" "Doe"
      (by decide) (by decide)).1,
    (c4_search_by_name_filter_split_behaviour "first_name" "last_name" "Jane" "Doe"
      (by decide) (by decide)).2.1 "Jane" (by decide)⟩

/-- C8: a tool-dispatch failure whose message carries the 403 / "Access
Forbidden" signature is re-thrown out of the chat loop under the stable
name `DreamFactoryError` with its message preserved, while any other
dispatch failure propagates as the unchanged generic error; an error
unwinding through an outer chat level keeps the `DreamFactoryError`
discriminator. -/
theorem c8_access_forbidden_retagged
    (env : Orch.Env) (st : DF.State) (fn : String) (args : Orch.FnArgs)
    (rest : List Orch.ModelTurn) :
    (∀ msg st1,
      Orch.dispatch env { st with requestedEndpoints := [] } fn args = (.error msg, st1) →
      (Orch.chat env (.fncall fn args :: rest) st).1 =
        .error (if Orch.isForbiddenSig msg then ⟨"DreamFactoryError", msg⟩
                else ⟨"Error", msg⟩)) ∧
    (∀ st1,
      Orch.dispatch env { st with requestedEndpoints := [] } fn args = (.ok (), st1) →
      ∀ e st2, Orch.chat env rest st1 = (.error e, st2) →
        (Orch.chat env (.fncall fn args :: rest) st).1 = .error (Orch.outerTag e) ∧
        (e.name = "DreamFactoryError" → Orch.outerTag e = e)) := by
  constructor
  · intro msg st1 hdisp
    rw [Orch.chat]
    rw [hdisp]
    by_cases hs : Orch.isForbiddenSig msg
    · simp [Orch.innerTag, Orch.outerTag, hs]
    · simp [Orch.innerTag, Orch.outerTag, hs]
  · intro st1 hdisp e st2 hrun
    rw [Orch.chat]
    rw [hdisp]
    dsimp only
    rw [hrun]
    refine ⟨rfl, fun hname => ?_⟩
    cases e with
    | mk n m =>
      simp only at hname
      simp [Orch.outerTag, hname]

/-- C8 witness: a `queryTable` dispatch that fails upstream with a 403
"Access Forbidden" message surfaces as `DreamFactoryError`. -/
theorem c8_access_forbidden_retagged_witness :
    Orch.dispatch
        (Orch.Env.mk
          (DF.Env.mk "http://localhost:8080" (some "tok") (.ok none)
            (fun _ => .error "unused") (fun _ _ => .error "unused")
            (fun _ => .error ("403 Forbidden - Access Forbidden to component "
              ++ sq ++ "mysql" ++ sq)))
          (fun _ => .ok "results"))
        { (({} : DF.State)) with requestedEndpoints := [] } "queryTable"
        { serviceName := "mysql", tableName := "employees" } =
      (.error ("403 Forbidden - Access Forbidden to component " ++ sq ++ "mysql" ++ sq),
        ({ cachedSchema := []
           cachedTableSchemas := []
           requestedEndpoints := ["http://localhost:8080/api/v2/mysql/_table/employees"] }
          : DF.State)) ∧
    (Orch.chat
        (Orch.Env.mk
          (DF.Env.mk "http://localhost:8080" (some "tok") (.ok none)
            (fun _ => .error "unused") (fun _ _ => .error "unused")
            (fun _ => .error ("403 Forbidden - Access Forbidden to component "
              ++ sq ++ "mysql" ++ sq)))
          (fun _ => .ok "results"))
        [.fncall "queryTable" { serviceName := "mysql", tableName := "employees" }]
        {}).1 =
      .error (if Orch.isForbiddenSig ("403 Forbidden - Access Forbidden to component "
          ++ sq ++ "mysql" ++ sq)
        then ⟨"DreamFactoryError",
          "403 Forbidden - Access Forbidden to component " ++ sq ++ "mysql" ++ sq⟩
        else ⟨"Error",
          "403 Forbidden - Access Forbidden to component " ++ sq ++ "mysql" ++ sq⟩) :=
  ⟨by decide,
    (c8_access_forbidden_retagged
      (Orch.Env.mk
        (DF.Env.mk "http://localhost:8080" (some "tok") (.ok none)
          (fun _ => .error "unused") (fun _ _ => .error "unused")
          (fun _ => .error ("403 Forbidden - Access Forbidden to component "
            ++ sq ++ "mysql" ++ sq)))
        (fun _ => .ok "results"))
      {} "queryTable" { serviceName := "mysql", tableName := "employees" } []).1
      ("403 Forbidden - Access Forbidden to component " ++ sq ++ "mysql" ++ sq)
      ({ cachedSchema := []
         cachedTableSchemas := []
         requestedEndpoints := ["http://localhost:8080/api/v2/mysql/_table/employees"] }
        : DF.State)
      (by decide)⟩

/-- C1 (code bug): in the scripted run — `listTables("sqlserver")`, then a
filtered `queryTable`, then a plain answer — each dispatch does record its
fully-qualified URL, but every `chat` invocation (including the recursive
re-entries after each tool call) clears the endpoint log first, so the
endpoint list returned with the final answer is `[]` rather than the two
URLs in call order. -/
theorem c1_endpoint_log_cleared_by_recursion :
    (Orch.chat c1Env c1Script {}).1 = .ok ("Answer: Abbeville.", []) ∧
    (Orch.dispatch c1Env {} "listTables" { serviceName := "sqlserver" }).2.requestedEndpoints =
      ["http://localhost:8080/api/v2/sqlserver/_schema"] ∧
    (Orch.dispatch c1Env
        ({ cachedSchema := [("sqlserver", ⟨some [⟨"Application.Cities"⟩]⟩)]
           cachedTableSchemas := []
           requestedEndpoints := [] } : DF.State)
        "queryTable"
        { serviceName := "sqlserver"
          tableName := "Application.Cities"
          queryParams := some { filter := some ("(CityName like " ++ sq ++ "Abbeville%" ++ sq ++ ")") } }
      ).2.requestedEndpoints =
      ["http://localhost:8080/api/v2/sqlserver/_table/Application.Cities?filter=%28CityName+like+%27Abbeville%25%27%29"] ∧
    ([] : List String) ≠
      ["http://localhost:8080/api/v2/sqlserver/_schema",
       "http://localhost:8080/api/v2/sqlserver/_table/Application.Cities?filter=%28CityName+like+%27Abbeville%25%27%29"] := by
  exact ⟨by decide, by decide, by decide, by decide⟩

/-- C6 counterexample: the code's normalization pipeline has rewrites for
`=` and `and` but none for `or`, so on a filter with whitespace around an
`or` connector it disagrees with the spec's normal form (which collapses
both connectors): the double spaces around `or` survive. -/
theorem c6_or_connector_not_normalized_counterexample :
    DF.formatFilter "x = 1  or  y = 2" ≠ SpecModel.specNormalizeFilter "x = 1  or  y = 2" ∧
    DF.formatFilter "x = 1  or  y = 2" = "(x=1  or  y=2)" ∧
    SpecModel.specNormalizeFilter "x = 1  or  y = 2" = "(x=1 or y=2)" := by
  exact ⟨by decide, by decide, by decide⟩

theorem okPairEq_of_fst {a : Char} (h1 : a ≠ '=') (h2 : a.isWhitespace = false)
    (b : Char) : okPairEq a b = true := by
  simp [okPairEq, h1, h2]

theorem okPairEq_of_snd (a : Char) {b : Char} (h1 : b ≠ '=') (h2 : b.isWhitespace = false) :
    okPairEq a b = true := by
  simp [okPairEq, h1, h2]

theorem okPairEq_ws_ws {a b : Char} (ha : a.isWhitespace = true) (hb : b.isWhitespace = true) :
    okPairEq a b = true := by
  have ha' : a ≠ '=' := fun h => by subst h; exact absurd ha (by decide)
  have hb' : b ≠ '=' := fun h => by subst h; exact absurd hb (by decide)
  simp [okPairEq, ha', hb']

theorem okPairEq_eq_fst {b : Char} (hb : b.isWhitespace = false) : okPairEq '=' b = true := by
  simp [okPairEq, hb]

theorem okPairEq_ws_not_eq {a b : Char} (ha : a.isWhitespace = true)
    (h : okPairEq a b = true) : b ≠ '=' := by
  intro hb
  subst hb
  simp [okPairEq, ha] at h

theorem noWsAdjEq_cons2 (a b : Char) (t : List Char) :
    noWsAdjEq (a :: b :: t) = (okPairEq a b && noWsAdjEq (b :: t)) := rfl

theorem noWsAdjEq_tail {a : Char} {l : List Char} (h : noWsAdjEq (a :: l) = true) :
    noWsAdjEq l = true := by
  cases l with
  | nil => rfl
  | cons b t =>
    rw [noWsAdjEq_cons2] at h
    exact (Bool.and_elim_right h)

theorem noWsAdjEq_pair {a b : Char} {t : List Char}
    (h : noWsAdjEq (a :: b :: t) = true) : okPairEq a b = true := by
  rw [noWsAdjEq_cons2] at h
  exact (Bool.and_elim_left h)

theorem noWsAdjEq_cons_head {a : Char} {l : List Char} (h : noWsAdjEq (a :: l) = true) :
    ∀ b, l.head? = some b → okPairEq a b = true := by
  intro b hb
  cases l with
  | nil => exact absurd hb (by simp)
  | cons x t =>
    rw [List.head?_cons, Option.some.injEq] at hb
    subst hb
    exact noWsAdjEq_pair h

theorem noWsAdjEq_cons_of {a : Char} {l : List Char}
    (hh : ∀ b, l.head? = some b → okPairEq a b = true)
    (hl : noWsAdjEq l = true) : noWsAdjEq (a :: l) = true := by
  cases l with
  | nil => rfl
  | cons b t =>
    rw [noWsAdjEq_cons2]
    exact Bool.and_intro (hh b rfl) hl

theorem noWsAdjEq_append_right {l1 l2 : List Char} (h : noWsAdjEq (l1 ++ l2) = true) :
    noWsAdjEq l2 = true := by
  induction l1 with
  | nil => exact h
  | cons a t ih =>
    rw [List.cons_append] at h
    exact ih (noWsAdjEq_tail h)

theorem getLast?_cons_of_some {x a : α} {t : List α} (h : t.getLast? = some a) :
    (x :: t).getLast? = some a := by
  cases t with
  | nil => exact absurd h (by simp)
  | cons y t' => rw [List.getLast?_cons_cons]; exact h

theorem noWsAdjEq_junction {l1 l2 : List Char} (h : noWsAdjEq (l1 ++ l2) = true) :
    ∀ a b, l1.getLast? = some a → l2.head? = some b → okPairEq a b = true := by
  induction l1 with
  | nil => intro a b ha; exact absurd ha (by simp)
  | cons x t ih =>
    intro a b ha hb
    rw [List.cons_append] at h
    cases t with
    | nil =>
      simp only [List.getLast?_singleton, Option.some.injEq] at ha
      subst ha
      exact noWsAdjEq_cons_head h b (by simpa using hb)
    | cons y t' =>
      rw [List.getLast?_cons_cons] at ha
      exact ih (noWsAdjEq_tail h) a b ha hb

theorem noWsAdjEq_append {l1 l2 : List Char} (h1 : noWsAdjEq l1 = true)
    (h2 : noWsAdjEq l2 = true)
    (hj : ∀ a b, l1.getLast? = some a → l2.head? = some b → okPairEq a b = true) :
    noWsAdjEq (l1 ++ l2) = true := by
  induction l1 with
  | nil => exact h2
  | cons x t ih =>
    rw [List.cons_append]
    apply noWsAdjEq_cons_of
    · intro b hb
      cases t with
      | nil => exact hj x b (by simp) (by simpa using hb)
      | cons y t' =>
        rw [List.cons_append, List.head?_cons, Option.some.injEq] at hb
        subst hb
        exact noWsAdjEq_pair h1
    · exact ih (noWsAdjEq_tail h1)
        (fun a b ha hb => hj a b (getLast?_cons_of_some ha) hb)

theorem head?_mem_of {l : List α} {a : α} (h : l.head? = some a) : a ∈ l := by
  cases l with
  | nil => exact absurd h (by simp)
  | cons x t =>
    rw [List.head?_cons, Option.some.injEq] at h
    subst h
    exact List.mem_cons_self x t

theorem noWsAdjEq_of_allWs {l : List Char} (h : ∀ c ∈ l, c.isWhitespace = true) :
    noWsAdjEq l = true := by
  induction l with
  | nil => rfl
  | cons a t ih =>
    apply noWsAdjEq_cons_of
    · intro b hb
      exact okPairEq_ws_ws (h a (List.mem_cons_self a t))
        (h b (List.mem_cons_of_mem a (head?_mem_of hb)))
    · exact ih (fun c hc => h c (List.mem_cons_of_mem a hc))

theorem collapseEqGo_ok : ∀ (l pend : List Char) (afterEq : Bool),
    (∀ c ∈ pend, c.isWhitespace = true) →
    (afterEq = true → pend = []) →
    noWsAdjEq (DF.collapseEqGo afterEq pend l) = true ∧
    (afterEq = true → ∀ b, (DF.collapseEqGo afterEq pend l).head? = some b →
      b.isWhitespace = false) := by
  intro l
  induction l with
  | nil =>
    intro pend afterEq hws hae
    constructor
    · exact noWsAdjEq_of_allWs hws
    · intro ha b hb
      rw [hae ha] at hb
      exact absurd hb (by simp [DF.collapseEqGo])
  | cons c cs ih =>
    intro pend afterEq hws hae
    by_cases hceq : c = '='
    · subst hceq
      rw [show DF.collapseEqGo afterEq pend ('=' :: cs) =
          '=' :: DF.collapseEqGo true [] cs by simp [DF.collapseEqGo]]
      obtain ⟨iha, ihb⟩ := ih [] true (by simp) (fun _ => rfl)
      constructor
      · apply noWsAdjEq_cons_of
        · intro b hb
          exact okPairEq_eq_fst (ihb rfl b hb)
        · exact iha
      · intro _ b hb
        rw [List.head?_cons, Option.some.injEq] at hb
        subst hb
        decide
    · cases hws2 : c.isWhitespace with
      | true =>
        cases afterEq with
        | true =>
          rw [show DF.collapseEqGo true pend (c :: cs) =
              DF.collapseEqGo true [] cs by simp [DF.collapseEqGo, hceq, hws2]]
          exact ih [] true (by simp) (fun _ => rfl)
        | false =>
          rw [show DF.collapseEqGo false pend (c :: cs) =
              DF.collapseEqGo false (pend ++ [c]) cs by simp [DF.collapseEqGo, hceq, hws2]]
          obtain ⟨iha, _⟩ := ih (pend ++ [c]) false
            (by
              intro x hx
              rcases List.mem_append.mp hx with hx | hx
              · exact hws x hx
              · rw [List.mem_singleton.mp hx]; exact hws2)
            (by simp)
          exact ⟨iha, by simp⟩
      | false =>
        rw [show DF.collapseEqGo afterEq pend (c :: cs) =
            pend ++ (c :: DF.collapseEqGo false [] cs) by
          cases afterEq <;> simp [DF.collapseEqGo, hceq, hws2]]
        obtain ⟨iha, _⟩ := ih [] false (by simp) (by simp)
        constructor
        · apply noWsAdjEq_append (noWsAdjEq_of_allWs hws)
          · apply noWsAdjEq_cons_of
            · intro b _
              exact okPairEq_of_fst hceq hws2 b
            · exact iha
          · intro a b ha hb
            rw [List.head?_cons, Option.some.injEq] at hb
            subst hb
            exact okPairEq_of_snd a hceq hws2
        · intro ha b hb
          rw [hae ha, List.nil_append, List.head?_cons, Option.some.injEq] at hb
          subst hb
          exact hws2

theorem okPairEq_nonws {a b : Char} (ha : a.isWhitespace = false)
    (hb : b.isWhitespace = false) : okPairEq a b = true := by
  simp [okPairEq, ha, hb]

theorem okPairEq_fst_ne_of_ws_snd {a b : Char} (hb : b.isWhitespace = true)
    (h : okPairEq a b = true) : a ≠ '=' := by
  intro ha
  subst ha
  simp [okPairEq, hb] at h

theorem okPairEq_ws_of_ne {a b : Char} (ha : a.isWhitespace = true) (hb : b ≠ '=') :
    okPairEq a b = true := by
  have ha' : a ≠ '=' := fun h => by subst h; exact absurd ha (by decide)
  simp [okPairEq, ha', hb]

theorem collapseOpenGo_head_false (l : List Char) :
    (DF.collapseOpenGo false l).head? = l.head? := by
  cases l with
  | nil => rfl
  | cons c cs =>
    by_cases hc : c = '('
    · subst hc
      simp [DF.collapseOpenGo]
    · simp [DF.collapseOpenGo, hc]

theorem collapseOpenGo_ok : ∀ (l : List Char) (flag : Bool), noWsAdjEq l = true →
    noWsAdjEq (DF.collapseOpenGo flag l) = true := by
  intro l
  induction l with
  | nil => intro flag _; cases flag <;> rfl
  | cons c cs ih =>
    intro flag h
    by_cases hc : c = '('
    · subst hc
      rw [show DF.collapseOpenGo flag ('(' :: cs) = '(' :: DF.collapseOpenGo true cs by
        cases flag <;> simp [DF.collapseOpenGo]]
      apply noWsAdjEq_cons_of
      · intro b _
        exact okPairEq_of_fst (by decide) (by decide) b
      · exact ih true (noWsAdjEq_tail h)
    · cases flag with
      | false =>
        rw [show DF.collapseOpenGo false (c :: cs) = c :: DF.collapseOpenGo false cs by
          simp [DF.collapseOpenGo, hc]]
        apply noWsAdjEq_cons_of
        · intro b hb
          rw [collapseOpenGo_head_false cs] at hb
          exact noWsAdjEq_cons_head h b hb
        · exact ih false (noWsAdjEq_tail h)
      | true =>
        cases hws : c.isWhitespace with
        | true =>
          rw [show DF.collapseOpenGo true (c :: cs) = DF.collapseOpenGo true cs by
            simp [DF.collapseOpenGo, hws]]
          exact ih true (noWsAdjEq_tail h)
        | false =>
          rw [show DF.collapseOpenGo true (c :: cs) = c :: DF.collapseOpenGo false cs by
            simp [DF.collapseOpenGo, hws, hc]]
          apply noWsAdjEq_cons_of
          · intro b hb
            rw [collapseOpenGo_head_false cs] at hb
            exact noWsAdjEq_cons_head h b hb
          · exact ih false (noWsAdjEq_tail h)

theorem collapseCloseGo_nil_head_ws (cs : List Char) (b : Char)
    (hb : (DF.collapseCloseGo [] cs).head? = some b) (hws : b.isWhitespace = true) :
    ∃ w, cs.head? = some w ∧ w.isWhitespace = true := by
  cases cs with
  | nil => exact absurd hb (by simp [DF.collapseCloseGo])
  | cons x xs =>
    cases hxw : x.isWhitespace with
    | true => exact ⟨x, rfl, hxw⟩
    | false =>
      by_cases hx : x = ')'
      · subst hx
        rw [show DF.collapseCloseGo [] (')' :: xs) = ')' :: DF.collapseCloseGo [] xs by
          simp [DF.collapseCloseGo, hxw]] at hb
        rw [List.head?_cons, Option.some.injEq] at hb
        subst hb
        exact absurd hws (by decide)
      · rw [show DF.collapseCloseGo [] (x :: xs) = x :: DF.collapseCloseGo [] xs by
          simp [DF.collapseCloseGo, hxw, hx]] at hb
        rw [List.head?_cons, Option.some.injEq] at hb
        subst hb
        exact absurd hws (by simp [hxw])

theorem collapseCloseGo_ok : ∀ (l pend : List Char),
    (∀ c ∈ pend, c.isWhitespace = true) → noWsAdjEq (pend ++ l) = true →
    noWsAdjEq (DF.collapseCloseGo pend l) = true := by
  intro l
  induction l with
  | nil => intro pend hws _; exact noWsAdjEq_of_allWs hws
  | cons c cs ih =>
    intro pend hws h
    cases hcw : c.isWhitespace with
    | true =>
      rw [show DF.collapseCloseGo pend (c :: cs) = DF.collapseCloseGo (pend ++ [c]) cs by
        simp [DF.collapseCloseGo, hcw]]
      apply ih (pend ++ [c])
      · intro x hx
        rcases List.mem_append.mp hx with hx | hx
        · exact hws x hx
        · rw [List.mem_singleton.mp hx]; exact hcw
      · rw [List.append_assoc]
        simpa using h
    | false =>
      by_cases hc : c = ')'
      · subst hc
        rw [show DF.collapseCloseGo pend (')' :: cs) = ')' :: DF.collapseCloseGo [] cs by
          simp [DF.collapseCloseGo, hcw]]
        apply noWsAdjEq_cons_of
        · intro b _
          exact okPairEq_of_fst (by decide) (by decide) b
        · exact ih [] (by simp) (by simpa using noWsAdjEq_tail (noWsAdjEq_append_right h))
      · rw [show DF.collapseCloseGo pend (c :: cs) =
            pend ++ (c :: DF.collapseCloseGo [] cs) by
          simp [DF.collapseCloseGo, hcw, hc]]
        have hcs : noWsAdjEq cs = true := noWsAdjEq_tail (noWsAdjEq_append_right h)
        apply noWsAdjEq_append (noWsAdjEq_of_allWs hws)
        · apply noWsAdjEq_cons_of
          · intro b hb
            cases hbw : b.isWhitespace with
            | false => exact okPairEq_nonws hcw hbw
            | true =>
              obtain ⟨w, hw, hww⟩ := collapseCloseGo_nil_head_ws cs b hb hbw
              have hpair := noWsAdjEq_cons_head (noWsAdjEq_append_right h) w hw
              exact okPairEq_of_fst (okPairEq_fst_ne_of_ws_snd hww hpair) hcw b
          · exact ih [] (by simp) (by simpa using hcs)
        · intro a b ha hb
          rw [List.head?_cons, Option.some.injEq] at hb
          subst hb
          exact noWsAdjEq_junction h a c ha rfl

theorem collapseAndGo_nil_head_ws (cs : List Char) (b : Char)
    (hb : (DF.collapseAndGo false [] cs).head? = some b) (hws : b.isWhitespace = true) :
    ∃ w, cs.head? = some w ∧ w.isWhitespace = true := by
  cases cs with
  | nil => exact absurd hb (by simp [DF.collapseAndGo])
  | cons x xs =>
    cases hxw : x.isWhitespace with
    | true => exact ⟨x, rfl, hxw⟩
    | false =>
      rw [show DF.collapseAndGo false [] (x :: xs) = x :: DF.collapseAndGo false [] xs by
        rw [DF.collapseAndGo.eq_def]; simp [hxw]] at hb
      rw [List.head?_cons, Option.some.injEq] at hb
      subst hb
      exact absurd hws (by simp [hxw])

theorem collapseAndGo_ok : ∀ (mode : Bool) (pend l : List Char),
    (∀ c ∈ pend, c.isWhitespace = true) →
    (mode = false → noWsAdjEq (pend ++ l) = true) →
    (mode = true → pend = [] ∧ noWsAdjEq (' ' :: l) = true) →
    noWsAdjEq (DF.collapseAndGo mode pend l) = true ∧
    (mode = true → ∀ b, (DF.collapseAndGo mode pend l).head? = some b →
      b.isWhitespace = false ∧ b ≠ '=') := by
  intro mode pend l
  induction mode, pend, l using DF.collapseAndGo.induct with
  | case1 x pend =>
    intro hws _ hmt
    have he : DF.collapseAndGo x pend [] = pend := by cases x <;> rfl
    constructor
    · rw [he]; exact noWsAdjEq_of_allWs hws
    · intro hm b hb
      rw [he, (hmt hm).1] at hb
      exact absurd hb (by simp)
  | case2 x c cs hcw ih =>
    intro hws _ hmt
    obtain ⟨_, hsp⟩ := hmt rfl
    rw [show DF.collapseAndGo true x (c :: cs) = DF.collapseAndGo true [] cs by
      simp [DF.collapseAndGo, hcw]]
    apply ih (by simp) (fun h => absurd h (by simp))
    intro _
    refine ⟨rfl, ?_⟩
    have h1 : noWsAdjEq (c :: cs) = true := noWsAdjEq_tail hsp
    apply noWsAdjEq_cons_of
    · intro b hb
      exact okPairEq_ws_of_ne (by decide)
        (okPairEq_ws_not_eq hcw (noWsAdjEq_cons_head h1 b hb))
    · exact noWsAdjEq_tail h1
  | case3 x c cs hcw ih =>
    intro hws _ hmt
    obtain ⟨_, hsp⟩ := hmt rfl
    have hcw' : c.isWhitespace = false := by simpa using hcw
    rw [show DF.collapseAndGo true x (c :: cs) = c :: DF.collapseAndGo false [] cs by
      simp [DF.collapseAndGo, hcw']]
    have hcne : c ≠ '=' := okPairEq_ws_not_eq (by decide) (noWsAdjEq_pair hsp)
    have ihc := ih (by simp)
      (fun _ => by simpa using noWsAdjEq_tail (noWsAdjEq_tail hsp))
      (fun h => absurd h (by simp))
    constructor
    · apply noWsAdjEq_cons_of
      · intro b _
        exact okPairEq_of_fst hcne hcw' b
      · exact ihc.1
    · intro _ b hb
      rw [List.head?_cons, Option.some.injEq] at hb
      subst hb
      exact ⟨hcw', hcne⟩
  | case4 pend c cs hcw ih =>
    intro hws hmf _
    have hf := hmf rfl
    rw [show DF.collapseAndGo false pend (c :: cs) =
        DF.collapseAndGo false (pend ++ [c]) cs by
      rw [DF.collapseAndGo.eq_def]; simp [hcw]]
    refine ⟨(ih ?_ (fun _ => ?_) (fun h => absurd h (by simp))).1, by simp⟩
    · intro x hx
      rcases List.mem_append.mp hx with hx | hx
      · exact hws x hx
      · rw [List.mem_singleton.mp hx]; exact hcw
    · rw [List.append_assoc]
      simpa using hf
  | case5 pend c cs hcw hpe ih =>
    intro hws hmf _
    have hf := hmf rfl
    have hcw' : c.isWhitespace = false := by simpa using hcw
    have hpnil : pend = [] := List.isEmpty_iff.mp hpe
    subst hpnil
    rw [show DF.collapseAndGo false [] (c :: cs) = c :: DF.collapseAndGo false [] cs by
      rw [DF.collapseAndGo.eq_def]; simp [hcw']]
    have hccs : noWsAdjEq (c :: cs) = true := by simpa using hf
    have ihc := ih (by simp) (fun _ => by simpa using noWsAdjEq_tail hccs)
      (fun h => absurd h (by simp))
    refine ⟨?_, by simp⟩
    apply noWsAdjEq_cons_of
    · intro b hb
      cases hbw : b.isWhitespace with
      | false => exact okPairEq_nonws hcw' hbw
      | true =>
        obtain ⟨w, hw, hww⟩ := collapseAndGo_nil_head_ws cs b hb hbw
        exact okPairEq_of_fst
          (okPairEq_fst_ne_of_ws_snd hww (noWsAdjEq_cons_head hccs w hw)) hcw' b
    · exact ihc.1
  | case6 pend c hcw hpe n d rest hcond ih =>
    intro hws hmf _
    have hf := hmf rfl
    have hcw' : c.isWhitespace = false := by simpa using hcw
    have hpe' : pend.isEmpty = false := by simpa using hpe
    rw [show DF.collapseAndGo false pend (c :: n :: d :: rest) =
        ' ' :: 'a' :: 'n' :: 'd' :: ' ' :: DF.collapseAndGo true [] rest by
      simp [DF.collapseAndGo, hcw', hpe', hcond]]
    have hrestAdj : noWsAdjEq rest = true :=
      noWsAdjEq_tail (noWsAdjEq_tail (noWsAdjEq_tail (noWsAdjEq_append_right hf)))
    have hrws : ∀ b, rest.head? = some b → b.isWhitespace = true := by
      intro b hb
      have h2 := Bool.and_elim_right hcond
      cases rest with
      | nil => exact absurd h2 (by simp [DF.headIsWs])
      | cons w r' =>
        rw [List.head?_cons, Option.some.injEq] at hb
        subst hb
        simpa [DF.headIsWs] using h2
    have ihr := ih (by simp) (fun h => absurd h (by simp))
      (fun _ => ⟨rfl, by
        apply noWsAdjEq_cons_of
        · intro b hb
          exact okPairEq_ws_ws (by decide) (hrws b hb)
        · exact hrestAdj⟩)
    refine ⟨?_, by simp⟩
    apply noWsAdjEq_cons_of
    · intro b hb
      rw [List.head?_cons, Option.some.injEq] at hb
      subst hb
      decide
    apply noWsAdjEq_cons_of
    · intro b hb
      rw [List.head?_cons, Option.some.injEq] at hb
      subst hb
      decide
    apply noWsAdjEq_cons_of
    · intro b hb
      rw [List.head?_cons, Option.some.injEq] at hb
      subst hb
      decide
    apply noWsAdjEq_cons_of
    · intro b hb
      rw [List.head?_cons, Option.some.injEq] at hb
      subst hb
      decide
    apply noWsAdjEq_cons_of
    · intro b hb
      obtain ⟨hbw, hbne⟩ := ihr.2 rfl b hb
      exact okPairEq_ws_of_ne (by decide) hbne
    · exact ihr.1
  | case7 pend c hcw hpe n d rest hcond ih =>
    intro hws hmf _
    have hf := hmf rfl
    have hcw' : c.isWhitespace = false := by simpa using hcw
    have hpe' : pend.isEmpty = false := by simpa using hpe
    have hcond' : (DF.isWordAnd c n d && DF.headIsWs rest) = false := by simpa using hcond
    rw [show DF.collapseAndGo false pend (c :: n :: d :: rest) =
        pend ++ (c :: DF.collapseAndGo false [] (n :: d :: rest)) by
      simp [DF.collapseAndGo, hcw', hpe', hcond']]
    have hccs : noWsAdjEq (c :: n :: d :: rest) = true := noWsAdjEq_append_right hf
    have ihc := ih (by simp) (fun _ => by simpa using noWsAdjEq_tail hccs)
      (fun h => absurd h (by simp))
    refine ⟨?_, by simp⟩
    apply noWsAdjEq_append (noWsAdjEq_of_allWs hws)
    · apply noWsAdjEq_cons_of
      · intro b hb
        cases hbw : b.isWhitespace with
        | false => exact okPairEq_nonws hcw' hbw
        | true =>
          obtain ⟨w, hw, hww⟩ := collapseAndGo_nil_head_ws _ b hb hbw
          exact okPairEq_of_fst
            (okPairEq_fst_ne_of_ws_snd hww (noWsAdjEq_cons_head hccs w hw)) hcw' b
      · exact ihc.1
    · intro a b ha hb
      rw [List.head?_cons, Option.some.injEq] at hb
      subst hb
      exact noWsAdjEq_junction hf a c ha rfl
  | case8 pend c hcw hpe n ih =>
    intro hws hmf _
    have hf := hmf rfl
    have hcw' : c.isWhitespace = false := by simpa using hcw
    have hpe' : pend.isEmpty = false := by simpa using hpe
    rw [show DF.collapseAndGo false pend (c :: [n]) =
        pend ++ (c :: DF.collapseAndGo false [] [n]) by
      simp [DF.collapseAndGo, hcw', hpe']]
    have hccs : noWsAdjEq (c :: [n]) = true := noWsAdjEq_append_right hf
    have ihc := ih (by simp) (fun _ => by simpa using noWsAdjEq_tail hccs)
      (fun h => absurd h (by simp))
    refine ⟨?_, by simp⟩
    apply noWsAdjEq_append (noWsAdjEq_of_allWs hws)
    · apply noWsAdjEq_cons_of
      · intro b hb
        cases hbw : b.isWhitespace with
        | false => exact okPairEq_nonws hcw' hbw
        | true =>
          obtain ⟨w, hw, hww⟩ := collapseAndGo_nil_head_ws _ b hb hbw
          exact okPairEq_of_fst
            (okPairEq_fst_ne_of_ws_snd hww (noWsAdjEq_cons_head hccs w hw)) hcw' b
      · exact ihc.1
    · intro a b ha hb
      rw [List.head?_cons, Option.some.injEq] at hb
      subst hb
      exact noWsAdjEq_junction hf a c ha rfl
  | case9 pend c hcw hpe =>
    intro hws hmf _
    have hf := hmf rfl
    have hcw' : c.isWhitespace = false := by simpa using hcw
    have hpe' : pend.isEmpty = false := by simpa using hpe
    rw [show DF.collapseAndGo false pend [c] = pend ++ [c] by
      simp [DF.collapseAndGo, hcw', hpe']]
    refine ⟨?_, by simp⟩
    apply noWsAdjEq_append (noWsAdjEq_of_allWs hws) (by rfl)
    intro a b ha hb
    rw [List.head?_cons, Option.some.injEq] at hb
    subst hb
    exact noWsAdjEq_junction hf a c ha rfl

theorem formatFilter_starts_paren (f : String) :
    strStartsWith (DF.formatFilter f) "(" = true := by
  rw [DF.formatFilter]
  split
  · assumption
  · rw [strStartsWith]
    rw [show ("(" ++ String.mk (DF.collapseAndWs (DF.collapseCloseWs
        (DF.collapseOpenWs (DF.collapseEqWs f.data)))) ++ ")").data =
      '(' :: (DF.collapseAndWs (DF.collapseCloseWs
        (DF.collapseOpenWs (DF.collapseEqWs f.data))) ++ [')']) by
      simp [String.data_append]]
    simp [startsWithSeq]

theorem formatFilter_noWsAdjEq (f : String) :
    noWsAdjEq (DF.formatFilter f).data = true := by
  have h1 : noWsAdjEq (DF.collapseEqWs f.data) = true := by
    have := (collapseEqGo_ok f.data [] false (by simp) (by simp)).1
    simpa [DF.collapseEqWs] using this
  have h2 : noWsAdjEq (DF.collapseOpenWs (DF.collapseEqWs f.data)) = true := by
    have := collapseOpenGo_ok (DF.collapseEqWs f.data) false h1
    simpa [DF.collapseOpenWs] using this
  have h3 : noWsAdjEq (DF.collapseCloseWs (DF.collapseOpenWs (DF.collapseEqWs f.data))) = true := by
    have := collapseCloseGo_ok (DF.collapseOpenWs (DF.collapseEqWs f.data)) []
      (by simp) (by simpa using h2)
    simpa [DF.collapseCloseWs] using this
  have h4 : noWsAdjEq (DF.collapseAndWs (DF.collapseCloseWs
      (DF.collapseOpenWs (DF.collapseEqWs f.data)))) = true := by
    have := (collapseAndGo_ok false []
      (DF.collapseCloseWs (DF.collapseOpenWs (DF.collapseEqWs f.data)))
      (by simp) (fun _ => by simpa using h3) (fun h => absurd h (by simp))).1
    simpa [DF.collapseAndWs] using this
  rw [DF.formatFilter]
  split
  · simpa using h4
  · rw [show ("(" ++ String.mk (DF.collapseAndWs (DF.collapseCloseWs
        (DF.collapseOpenWs (DF.collapseEqWs f.data)))) ++ ")").data =
      '(' :: (DF.collapseAndWs (DF.collapseCloseWs
        (DF.collapseOpenWs (DF.collapseEqWs f.data))) ++ [')']) by
      simp [String.data_append]]
    apply noWsAdjEq_cons_of
    · intro b _
      exact okPairEq_of_fst (by decide) (by decide) b
    · apply noWsAdjEq_append h4 (by rfl)
      intro a b _ hb
      rw [List.head?_cons, Option.some.injEq] at hb
      subst hb
      exact okPairEq_of_snd a (by decide) (by decide)

/-- C6 (amended): before being sent, a filter is rewritten so that
whitespace around `=` disappears (the result has no whitespace character
adjacent to any `=`), whitespace directly inside parentheses is removed,
and whitespace around the connector `and` (case-insensitive) is collapsed
to single spaces with the connector lowercased; whitespace around the
connector `or` is NOT normalized; the whole expression is wrapped in
parentheses whenever it does not already start with one, and the rewritten
filter is what `queryTable` puts into the `filter` query parameter. -/
theorem c6_filter_normalization_behaviour :
    (∀ f : String, strStartsWith (DF.formatFilter f) "(" = true) ∧
    (∀ f : String, noWsAdjEq (DF.formatFilter f).data = true) ∧
    DF.formatFilter "a = 1 AND b = 2" = "(a=1 and b=2)" ∧
    DF.formatFilter "x = 1  or  y = 2" = "(x=1  or  y=2)" ∧
    (∀ (p : DF.QueryParams) (f : String), p.filter = some f → f ≠ "" →
      ("filter", DF.formatFilter f) ∈ DF.buildQueryPairs p) := by
  refine ⟨formatFilter_starts_paren, formatFilter_noWsAdjEq, by decide, by decide, ?_⟩
  intro p f hp hne
  rw [DF.buildQueryPairs]
  apply List.mem_append.mpr
  left
  apply List.mem_append.mpr; left
  apply List.mem_append.mpr; left
  apply List.mem_append.mpr; left
  apply List.mem_append.mpr; left
  apply List.mem_append.mpr; left
  apply List.mem_append.mpr; left
  rw [hp]
  simp [truthyStr, hne]

/-- C6 witness: a nonempty filter lands (normalized) in the parameter
list. -/
theorem c6_filter_normalization_behaviour_witness :
    (({ filter := some "a = 1" } : DF.QueryParams).filter = some "a = 1") ∧
    ("a = 1" : String) ≠ "" ∧
    ("filter", DF.formatFilter "a = 1") ∈
      DF.buildQueryPairs ({ filter := some "a = 1" } : DF.QueryParams) :=
  ⟨rfl, by decide,
    c6_filter_normalization_behaviour.2.2.2.2 { filter := some "a = 1" } "a = 1"
      rfl (by decide)⟩

end DfChat
